import Mathlib

/-!
Verification of the orchestration core of a YouTube video summarizer
(src/app.py): URL id extraction, transcript resolution with an audio
fallback chain, text chunking, partial-failure-tolerant chunk
summarization, pipeline coordination, and the HTTP boundary mapping.

External collaborators (transcript API, yt-dlp, pydub, whisper, the
summarization model, the file system) are modelled as oracles supplied in
an environment record; the Python functions of src/app.py are embedded as
Lean functions over those oracles.  Python `None` is modelled as
`Option.none`, a raised exception as `Except.error`.
-/

set_option maxHeartbeats 1000000

namespace YTSum

/-- Python exception value, carrying the message `str(e)`. -/
structure Exn where
  msg : String
deriving DecidableEq

/-- Models Python whitespace (the character class used by `str.split()` and
`str.strip()` with no arguments): ASCII whitespace, C0 separators, NEL, and
the Unicode space characters. -/
def isPySpace (c : Char) : Bool :=
  (9 ≤ c.toNat && c.toNat ≤ 13) || c.toNat = 32 || (28 ≤ c.toNat && c.toNat ≤ 31) ||
  c.toNat = 133 || c.toNat = 160 || c.toNat = 5760 || (8192 ≤ c.toNat && c.toNat ≤ 8202) ||
  c.toNat = 8232 || c.toNat = 8233 || c.toNat = 8239 || c.toNat = 8287 || c.toNat = 12288

/-- Accumulator pass of Python `text.split()` with no separator: split on
whitespace runs, discarding empty fields. -/
def wordsAux : List Char → List Char → List (List Char)
  | [], acc => if acc = [] then [] else [acc]
  | c :: cs, acc =>
    if isPySpace c then
      if acc = [] then wordsAux cs [] else acc :: wordsAux cs []
    else wordsAux cs (acc ++ [c])

/-- Models Python `text.split()` at the character-list level. -/
def pySplitChars (l : List Char) : List (List Char) := wordsAux l []

/-- Models Python `text.split()` (no separator argument). -/
def pySplit (s : String) : List String := (pySplitChars s.data).map String.mk

/-- Models Python `sep.join(list)`. -/
def pyJoin (sep : String) : List String → String
  | [] => ""
  | s :: ss => ss.foldl (fun acc t => acc ++ sep ++ t) s

/-- Single-space join at the character-list level. -/
def joinSep : List (List Char) → List Char
  | [] => []
  | [w] => w
  | w :: x :: ws => w ++ ' ' :: joinSep (x :: ws)

/-- Fuel-indexed word windowing: the slices `words[i : i + max_words]` taken
by `chunk_text`'s list comprehension for `i in range(0, len(words),
max_words)`.  Any fuel at least the word count gives the Python behaviour
(for `max_words ≥ 1`). -/
def chunkWordsGo : Nat → Nat → List String → List (List String)
  | _, _, [] => []
  | 0, _, _ :: _ => []
  | fuel + 1, m, w :: rest => (w :: rest.take (m - 1)) :: chunkWordsGo fuel m (rest.drop (m - 1))

/-- Models `chunk_text(text, max_words)` from src/app.py:
`words = text.split()`;
`[" ".join(words[i:i+max_words]) for i in range(0, len(words), max_words)]`.
Python's `range` raises `ValueError` on step `0`, modelled as `none`. -/
def chunk_text (text : String) (max_words : Nat) : Option (List String) :=
  if max_words = 0 then none
  else
    some ((chunkWordsGo (pySplit text).length max_words (pySplit text)).map (fun g => pyJoin " " g))

/-- First component of Python `list.partition`-style scan: `breakAt p l`
returns the elements before the first one satisfying `p`, and the rest
starting with that element (or `[]` when no element satisfies `p`). -/
def breakAt (p : Char → Bool) : List Char → List Char × List Char
  | [] => ([], [])
  | c :: cs => if p c then ([], c :: cs) else
      match breakAt p cs with
      | (a, b) => (c :: a, b)

/-- Models Python `s.split(sep)` for a one-character separator: always at
least one field, empty fields preserved. -/
def splitChar (sep : Char) : List Char → List (List Char)
  | [] => [[]]
  | c :: cs =>
    if c = sep then [] :: splitChar sep cs
    else
      match splitChar sep cs with
      | [] => [[c]]
      | g :: gs => (c :: g) :: gs

/-- Prefix test on character lists (Python `str.startswith`). -/
def startsWithChars : List Char → List Char → Bool
  | [], _ => true
  | _ :: _, [] => false
  | a :: as, b :: bs => a = b && startsWithChars as bs

/-- Models Python `needle in hay` substring containment on character lists. -/
def isSubstrChars (n : List Char) : List Char → Bool
  | [] => startsWithChars n []
  | c :: t => startsWithChars n (c :: t) || isSubstrChars n t

/-- Models Python `needle in hay` on strings. -/
def pyContains (needle hay : String) : Bool := isSubstrChars needle.data hay.data

/-- Models Python `ch in s` for a single character. -/
def hasChar (ch : Char) : List Char → Bool
  | [] => false
  | c :: cs => c = ch || hasChar ch cs

/-- Models Python `s.strip()` (both ends, default whitespace set). -/
def pyStrip (s : String) : String :=
  String.mk (((s.data.dropWhile isPySpace).reverse.dropWhile isPySpace).reverse)

/-- Hexadecimal digit value, as used by percent-decoding. -/
def hexVal (c : Char) : Option Nat :=
  if 48 ≤ c.toNat && c.toNat ≤ 57 then some (c.toNat - 48)
  else if 65 ≤ c.toNat && c.toNat ≤ 70 then some (c.toNat - 55)
  else if 97 ≤ c.toNat && c.toNat ≤ 102 then some (c.toNat - 87)
  else none

/-- Models `urllib.parse.unquote` restricted to single-byte (ASCII) percent
escapes: a valid `%XX` pair below 0x80 decodes to that character, anything
else is kept literally.  Multi-byte UTF-8 escapes (irrelevant to every
claim considered here) are outside the model. -/
def unquoteChars : List Char → List Char
  | [] => []
  | '%' :: a :: b :: rest =>
    (match hexVal a, hexVal b with
     | some x, some y =>
       if 16 * x + y < 128 then Char.ofNat (16 * x + y) :: unquoteChars rest
       else '%' :: unquoteChars (a :: b :: rest)
     | _, _ => '%' :: unquoteChars (a :: b :: rest))
  | c :: rest => c :: unquoteChars rest

/-- Models the `unquote(s.replace('+', ' '))` step `parse_qsl` applies to
each field name and value. -/
def unquotePlus (l : List Char) : List Char :=
  unquoteChars (l.map (fun c => if c = '+' then ' ' else c))

/-- ASCII letter test (Python `c.isascii() and c.isalpha()`). -/
def isAsciiAlpha (c : Char) : Bool :=
  (65 ≤ c.toNat && c.toNat ≤ 90) || (97 ≤ c.toNat && c.toNat ≤ 122)

/-- The characters CPython's `urlsplit` allows in a scheme. -/
def isSchemeChar (c : Char) : Bool :=
  isAsciiAlpha c || (48 ≤ c.toNat && c.toNat ≤ 57) || c = '+' || c = '-' || c = '.'

/-- ASCII lower-casing of a single character. -/
def lowerAscii (c : Char) : Char :=
  if 65 ≤ c.toNat && c.toNat ≤ 90 then Char.ofNat (c.toNat + 32) else c

/-- C0-control-or-space class stripped from URL ends by CPython's
`urlsplit` (`_WHATWG_C0_CONTROL_OR_SPACE`). -/
def isC0Space (c : Char) : Bool := c.toNat ≤ 32

/-- URL sanitizing performed by CPython's `urlsplit` before parsing:
remove every tab, CR and LF, then strip C0 controls and spaces from the
left end only (`url.lstrip(_WHATWG_C0_CONTROL_OR_SPACE)`). -/
def sanitizeURL (l : List Char) : List Char :=
  (l.filter (fun c => !(c = '\t' || c = '\r' || c = '\n'))).dropWhile isC0Space

/-- Scheme extraction of CPython `urlsplit`: split at the first `:` when the
part before it is a nonempty ASCII-letter-initial run of scheme characters;
the scheme is lower-cased and the rest follows the colon.  Otherwise the URL
is left whole with an empty scheme. -/
def splitScheme (u : List Char) : List Char × List Char :=
  match breakAt (fun c => c = ':') u with
  | (_, []) => ([], u)
  | (pre, _ :: post) =>
    if (!pre.isEmpty) && (match pre.head? with | some c => isAsciiAlpha c | none => false)
        && pre.all isSchemeChar
    then (pre.map lowerAscii, post)
    else ([], u)

/-- Netloc extraction of CPython `urlsplit`: when the remainder starts with
`//`, the netloc runs to the next `/`, `?` or `#` (which stays in the
remainder). -/
def splitNetloc (u : List Char) : List Char × List Char :=
  if u.take 2 = ['/', '/'] then breakAt (fun c => c = '/' || c = '?' || c = '#') (u.drop 2)
  else ([], u)

/-- Split at the first occurrence of `ch`, dropping the delimiter; when `ch`
does not occur, the second component is empty (CPython's
`if ch in url: url.split(ch, 1)`). -/
def splitAtCharDrop (ch : Char) (u : List Char) : List Char × List Char :=
  match breakAt (fun c => c = ch) u with
  | (pre, []) => (pre, [])
  | (pre, _ :: post) => (pre, post)

/-- Decomposition at the last `/` (caller guarantees one occurs):
`(before, from-the-slash-on)`. -/
def splitLastSlash (u : List Char) : List Char × List Char :=
  match breakAt (fun c => c = '/') u.reverse with
  | (_, []) => ([], u)
  | (suf, _ :: prerev) => (prerev.reverse, '/' :: suf.reverse)

/-- Models CPython `urlparse._splitparams`: the params are what follows the
first `;` of the last path segment.  Only called when a `;` occurs. -/
def splitparams (u : List Char) : List Char × List Char :=
  if hasChar '/' u then
    match splitLastSlash u with
    | (pre, post) =>
      match breakAt (fun c => c = ';') post with
      | (_, []) => (u, [])
      | (a, _ :: b) => (pre ++ a, b)
  else
    match breakAt (fun c => c = ';') u with
    | (_, []) => (u, [])
    | (a, _ :: b) => (a, b)

/-- Result record of `urllib.parse.urlparse`. -/
structure URLParts where
  scheme : String
  netloc : String
  path : String
  params : String
  query : String
  fragment : String
deriving DecidableEq

/-- Models `urllib.parse.urlparse` (CPython, modern versions): sanitize,
split scheme / netloc / fragment / query / params in that order; a netloc
with unbalanced square brackets raises `ValueError("Invalid IPv6 URL")`.
The `_check_bracketed_host` and non-ASCII `_checknetloc` validations (which
reject only exotic bracketed or non-ASCII netlocs, never the ASCII inputs
considered here) are outside the model. -/
def urlparse (url : String) : Except Exn URLParts :=
  let u0 := sanitizeURL url.data
  match splitScheme u0 with
  | (scheme, u1) =>
    match splitNetloc u1 with
    | (netloc, u2) =>
      if (hasChar '[' netloc != hasChar ']' netloc) then
        Except.error ⟨"Invalid IPv6 URL"⟩
      else
        match splitAtCharDrop '#' u2 with
        | (u3, frag) =>
          match splitAtCharDrop '?' u3 with
          | (u4, query) =>
            match (if hasChar ';' u4 then splitparams u4 else (u4, [])) with
            | (path, params) =>
              Except.ok ⟨String.mk scheme, String.mk netloc, String.mk path,
                String.mk params, String.mk query, String.mk frag⟩

/-- The pairs of `urllib.parse.parse_qsl(query)` with default arguments:
fields split on `&`, empty fields and fields without `=` or with an empty
raw value skipped, names and values plus-replaced and percent-decoded. -/
def qsPairs : List (List Char) → List (List Char × List Char)
  | [] => []
  | f :: rest =>
    if f = [] then qsPairs rest
    else
      match breakAt (fun c => c = '=') f with
      | (_, []) => qsPairs rest
      | (n, _ :: v) =>
        if v = [] then qsPairs rest
        else (unquotePlus n, unquotePlus v) :: qsPairs rest

/-- Models `parse_qs(query).get("v", [None])[0]` from `extract_video_id`:
the first value bound to name `v`, if any. -/
def parse_qs_get_v (query : String) : Option String :=
  match (qsPairs (splitChar '&' query.data)).find? (fun pr => pr.1 = ['v']) with
  | some pr => some (String.mk pr.2)
  | none => none

/-- Models `extract_video_id(youtube_url)` from src/app.py: parse the URL
(any exception gives `None`); a netloc containing `"youtube.com"` yields the
first `v` query parameter, a netloc containing `"youtu.be"` yields the path
with leading slashes stripped, anything else `None`. -/
def extract_video_id (youtube_url : String) : Option String :=
  match urlparse youtube_url with
  | Except.error _ => none
  | Except.ok p =>
    if pyContains "youtube.com" p.netloc then parse_qs_get_v p.query
    else if pyContains "youtu.be" p.netloc then
      some (String.mk (p.path.data.dropWhile (fun c => c = '/')))
    else none

/-- Python truthiness of an optional string: `None` and `""` are falsy. -/
def truthy : Option String → Bool
  | none => false
  | some s => !(s == "")

/-- Existence state of the two fixed-path temporary files used by the
audio fallback chain. -/
structure FS where
  mp3 : Bool
  wav : Bool
deriving DecidableEq

/-- Observable collaborator invocations of one pipeline run. -/
inductive Ev where
  | getTranscriptCall
  | downloadCall
  | convertCall
  | transcribeCall
  | removeCall (file : String)
deriving DecidableEq

/-- Behaviour of the external collaborators for one request:
`getTranscript` is the outcome of `YouTubeTranscriptApi.get_transcript`
(exception, or the list of entry texts); `subprocessRun` the outcome of
`subprocess.run` for yt-dlp (exception or return); `downloadWrites` whether
yt-dlp produced `audio.mp3`; `convertRun` the outcome of the
pydub load/export; `whisperRun` the outcome of
`whisper_model.transcribe(...)["text"]`; `summarizer` the outcome of
`summarizer(chunk, max_length, min_length, do_sample=False)[0]["summary_text"]`
per chunk. -/
structure Env where
  getTranscript : Except Exn (List String)
  subprocessRun : Except Exn Unit
  downloadWrites : Bool
  convertRun : Except Exn Unit
  whisperRun : Except Exn String
  summarizer : String → Int → Int → Except Exn String

/-- Models `get_youtube_transcript(video_id)` from src/app.py: any
exception yields `None`; an empty entry list is falsy and yields `None`;
otherwise the entry texts joined with single spaces. -/
def get_youtube_transcript (r : Except Exn (List String)) : Option String :=
  match r with
  | Except.error _ => none
  | Except.ok entries => if entries.isEmpty then none else some (pyJoin " " entries)

/-- Models `download_audio(youtube_url)` from src/app.py.  There is no
try/except around `subprocess.run`, so its exception escapes this stage.
On return, the function answers `"audio.mp3"` when the file exists and
`None` otherwise; the file exists when it already did or yt-dlp wrote it. -/
def download_audio (subprocessRun : Except Exn Unit) (downloadWrites : Bool) (fs : FS) :
    Except Exn (Option String × FS) :=
  match subprocessRun with
  | Except.error e => Except.error e
  | Except.ok _ =>
    let fs2 : FS := ⟨fs.mp3 || downloadWrites, fs.wav⟩
    if fs2.mp3 then Except.ok (some "audio.mp3", fs2) else Except.ok (none, fs2)

/-- Models `convert_audio_to_wav(input_audio)` from src/app.py: the
pydub load/export is wrapped in try/except returning `None`; on success
`audio.wav` is written and returned. -/
def convert_audio_to_wav (convertRun : Except Exn Unit) (fs : FS) : Option String × FS :=
  match convertRun with
  | Except.error _ => (none, fs)
  | Except.ok _ => (some "audio.wav", ⟨fs.mp3, true⟩)

/-- Models `transcribe_audio(audio_file)` from src/app.py: whisper
transcription wrapped in try/except returning `None`. -/
def transcribe_audio (whisperRun : Except Exn String) : Option String :=
  match whisperRun with
  | Except.error _ => none
  | Except.ok t => some t

/-- Models `summarize_text(text, max_length, min_length)` from src/app.py:
chunk with the default `max_words = 900`, call the summarizer per chunk,
skip chunks whose call raises, join the successes with single spaces;
`None` when no chunk succeeded. -/
def summarize_text (summarizer : String → Int → Int → Except Exn String)
    (text : String) (max_length min_length : Int) : Option String :=
  match chunk_text text 900 with
  | none => none
  | some chunks =>
    let summaries := chunks.filterMap (fun c =>
      match summarizer c max_length min_length with
      | Except.ok s => some s
      | Except.error _ => none)
    if summaries = [] then none else some (pyJoin " " summaries)

/-- Models the cleanup loop of `process_youtube_video`:
`for file in ["audio.mp3", "audio.wav"]: if os.path.exists(file): os.remove(file)`.
Returns the new file state and the removal events issued. -/
def cleanup_files (fs : FS) : FS × List Ev :=
  let s1 := if fs.mp3 then (FS.mk false fs.wav, [Ev.removeCall "audio.mp3"]) else (fs, [])
  let s2 := if s1.1.wav then (FS.mk s1.1.mp3 false, s1.2 ++ [Ev.removeCall "audio.wav"]) else s1
  s2

/-- Body of `process_youtube_video(youtube_url)` (the code inside its
`try`): result (`Except.error` when an exception escapes a stage into the
coordinator), final temp-file state, and the collaborator-invocation
trace, in call order. -/
def process_body (env : Env) (youtube_url : String) (fs : FS) :
    Except Exn (Option String) × FS × List Ev :=
  let video_id := extract_video_id youtube_url
  if !truthy video_id then (Except.ok (some "Error: Invalid YouTube URL"), fs, [])
  else
    let transcript := get_youtube_transcript env.getTranscript
    if truthy transcript then
      (Except.ok (summarize_text env.summarizer (transcript.getD "") 150 50), fs,
        [Ev.getTranscriptCall])
    else
      let tr0 := [Ev.getTranscriptCall, Ev.downloadCall]
      match download_audio env.subprocessRun env.downloadWrites fs with
      | Except.error e => (Except.error e, fs, tr0)
      | Except.ok (input_audio, fs1) =>
        if !truthy input_audio then
          (Except.ok (some "Error: Failed to download audio"), fs1, tr0)
        else
          match convert_audio_to_wav env.convertRun fs1 with
          | (output_audio, fs2) =>
            if !truthy output_audio then
              (Except.ok (some "Error: Failed to convert audio"), fs2, tr0 ++ [Ev.convertCall])
            else
              let transcript2 := transcribe_audio env.whisperRun
              if !truthy transcript2 then
                (Except.ok (some "Error: Failed to transcribe audio"), fs2,
                  tr0 ++ [Ev.convertCall, Ev.transcribeCall])
              else
                let summary := summarize_text env.summarizer (transcript2.getD "") 150 50
                match cleanup_files fs2 with
                | (fs3, evs) =>
                  (Except.ok (if truthy summary then summary
                    else some "Error: Summarization failed"), fs3,
                   tr0 ++ [Ev.convertCall, Ev.transcribeCall] ++ evs)

/-- Models `process_youtube_video(youtube_url)` from src/app.py: the body
runs under `try`, and `except Exception as e: return f"Error: {str(e)}"`
converts any escaped exception into the catch-all error string. -/
def process_youtube_video (env : Env) (youtube_url : String) (fs : FS) :
    Option String × FS × List Ev :=
  match process_body env youtube_url fs with
  | (Except.error e, fs2, tr) => (some ("Error: " ++ e.msg), fs2, tr)
  | (Except.ok r, fs2, tr) => (r, fs2, tr)

/-- JSON body of a `/summarize` response: a summary object or an error
object. -/
inductive RBody where
  | summaryB (s : String)
  | errorB (s : String)
deriving DecidableEq

/-- Models the `/summarize` route of src/app.py on an already-parsed
request: strip the `youtube_url` field (missing field defaults to `""`),
reject an empty URL with status 400, run the pipeline, classify a `None`
result through the `"Error" in summary` TypeError caught by the route's
except (status 500), classify a string containing `"Error"` as an error
(status 500), and otherwise answer the summary with status 200.
The parsed `max_length`/`min_length` fields are not forwarded to the
pipeline by the source and are omitted here; JSON-parse and int-conversion
failures of the route (also mapped to status 500 by its except) are outside
the model. -/
def summarize (env : Env) (fs : FS) (youtube_url_raw : String) :
    (RBody × Nat) × FS × List Ev :=
  let youtube_url := pyStrip youtube_url_raw
  if youtube_url = "" then ((RBody.errorB "No YouTube URL provided", 400), fs, [])
  else
    match process_youtube_video env youtube_url fs with
    | (none, fs2, tr) =>
      ((RBody.errorB "Server error: argument of type 'NoneType' is not iterable", 500), fs2, tr)
    | (some summary, fs2, tr) =>
      if pyContains "Error" summary then ((RBody.errorB summary, 500), fs2, tr)
      else ((RBody.summaryB summary, 200), fs2, tr)

/-- Word list of the three-chunk witness text: 900 `"a"`s, 900 `"b"`s, one
`"c"`. -/
def c5words : List String :=
  List.replicate 900 "a" ++ (List.replicate 900 "b" ++ ["c"])

/-- Witness transcript whose default-width chunking has three chunks. -/
def c5text : String := pyJoin " " c5words

/-- First chunk of the witness text. -/
def c5chunk1 : String := pyJoin " " (List.replicate 900 ("a" : String))

/-- Second chunk of the witness text. -/
def c5chunk2 : String := pyJoin " " (List.replicate 900 ("b" : String))

/-- Witness summarization service: fails exactly on the chunk of `"b"`s. -/
def c5summarizer : String → Int → Int → Except Exn String := fun ch _ _ =>
  if ch.data.head? = some 'b' then Except.error ⟨"chunk too long"⟩
  else if ch.data.head? = some 'a' then Except.ok "S1"
  else Except.ok "S3"

/-- Environment of the all-chunks-fail platform-path scenario: the
transcript is available and the summarization service always raises. -/
def c3env : Env :=
  ⟨Except.ok ["hello", "world"], Except.ok (), false, Except.ok (),
   Except.error ⟨"x"⟩, fun _ _ _ => Except.error ⟨"service down"⟩⟩

/-- Environment of the all-chunks-fail speech-path scenario. -/
def c3env2 : Env :=
  ⟨Except.error ⟨"no transcript"⟩, Except.ok (), true, Except.ok (),
   Except.ok "spoken words", fun _ _ _ => Except.error ⟨"service down"⟩⟩

/-- Environment of the cleanup counterexample: platform transcript
available, summarization succeeds. -/
def c2env : Env :=
  ⟨Except.ok ["hello"], Except.ok (), false, Except.ok (),
   Except.error ⟨"x"⟩, fun _ _ _ => Except.ok "Fine summary"⟩

/-- Environment of the cleanup witness: full speech path succeeds. -/
def c2env2 : Env :=
  ⟨Except.ok [], Except.ok (), true, Except.ok (),
   Except.ok "spoken words", fun _ _ _ => Except.ok "S"⟩

/-- Environment of the download-failure witness: no transcript, yt-dlp runs
but writes nothing. -/
def c4env : Env :=
  ⟨Except.error ⟨"no transcript"⟩, Except.ok (), false, Except.ok (),
   Except.ok "t", fun _ _ _ => Except.ok "S"⟩

/-- Environment of the escaped-exception witness: yt-dlp missing, so
`subprocess.run` raises. -/
def c8env : Env :=
  ⟨Except.error ⟨"no transcript"⟩, Except.error ⟨"boom"⟩, false, Except.ok (),
   Except.ok "t", fun _ _ _ => Except.ok "S"⟩

/-- Environment of the error-sniffing witness: the transcript is available
and the (legitimate) summary happens to contain the word `"Error"`. -/
def c9env : Env :=
  ⟨Except.ok ["a", "tale"], Except.ok (), false, Except.ok (),
   Except.error ⟨"x"⟩, fun _ _ _ => Except.ok "An Error in the plot is found"⟩

/-- Characters of a well-formed video id (ASCII alphanumerics, `-` and
`_`), the alphabet YouTube ids are drawn from.  Used to delimit the
well-formed URL families the extraction claims quantify over. -/
def isIdChar (c : Char) : Bool :=
  (48 ≤ c.toNat && c.toNat ≤ 57) || (65 ≤ c.toNat && c.toNat ≤ 90) ||
  (97 ≤ c.toNat && c.toNat ≤ 122) || c.toNat = 45 || c.toNat = 95


/-! ### Lemmas about Python word splitting and joining -/

lemma wordsAux_wf (cs : List Char) : ∀ (acc : List Char),
    (∀ c ∈ acc, isPySpace c = false) →
    ∀ w ∈ wordsAux cs acc, w ≠ [] ∧ ∀ c ∈ w, isPySpace c = false := by
  induction cs with
  | nil =>
    intro acc hacc w hw
    by_cases h : acc = []
    · subst h; simp [wordsAux] at hw
    · simp [wordsAux, h] at hw
      subst hw
      exact ⟨h, hacc⟩
  | cons c cs ih =>
    intro acc hacc w hw
    by_cases hc : isPySpace c = true
    · by_cases h : acc = []
      · subst h
        simp [wordsAux, hc] at hw
        exact ih [] (by simp) w hw
      · simp [wordsAux, hc, h] at hw
        rcases hw with hw | hw
        · subst hw; exact ⟨h, hacc⟩
        · exact ih [] (by simp) w hw
    · simp [wordsAux, hc] at hw
      refine ih (acc ++ [c]) ?_ w hw
      intro d hd
      rcases List.mem_append.mp hd with h1 | h1
      · exact hacc d h1
      · simp at h1; subst h1
        simpa using hc

lemma pySplit_wf (text : String) :
    ∀ w ∈ pySplitChars text.data, w ≠ [] ∧ ∀ c ∈ w, isPySpace c = false :=
  wordsAux_wf text.data [] (by simp)

lemma wordsAux_append_word (w : List Char) (hw : ∀ c ∈ w, isPySpace c = false) :
    ∀ (cs acc : List Char), wordsAux (w ++ cs) acc = wordsAux cs (acc ++ w) := by
  induction w with
  | nil => intro cs acc; simp
  | cons c w ih =>
    intro cs acc
    have hc : isPySpace c = false := hw c (by simp)
    have hw2 : ∀ d ∈ w, isPySpace d = false := fun d hd => hw d (by simp [hd])
    have h1 : wordsAux ((c :: w) ++ cs) acc = wordsAux (w ++ cs) (acc ++ [c]) := by
      show wordsAux (c :: (w ++ cs)) acc = _
      simp [wordsAux, hc]
    rw [h1, ih hw2 cs (acc ++ [c]), List.append_assoc]
    rfl

lemma pySplitChars_joinSep : ∀ (ws : List (List Char)),
    (∀ w ∈ ws, w ≠ [] ∧ ∀ c ∈ w, isPySpace c = false) →
    pySplitChars (joinSep ws) = ws := by
  intro ws
  induction ws with
  | nil => intro _; rfl
  | cons w ws ih =>
    intro h
    have hw := h w (by simp)
    have hws : ∀ v ∈ ws, v ≠ [] ∧ ∀ c ∈ v, isPySpace c = false :=
      fun v hv => h v (by simp [hv])
    cases ws with
    | nil =>
      show pySplitChars w = [w]
      unfold pySplitChars
      rw [show w = w ++ [] by simp, wordsAux_append_word w hw.2]
      simp [wordsAux, hw.1]
    | cons x ws2 =>
      show pySplitChars (w ++ ' ' :: joinSep (x :: ws2)) = w :: x :: ws2
      unfold pySplitChars
      rw [wordsAux_append_word w hw.2]
      simp only [List.nil_append, wordsAux]
      rw [if_pos (by decide), if_neg hw.1]
      exact congrArg (w :: ·) (ih hws)

lemma joinSep_glue (x y : List Char) (X : List (List Char)) :
    joinSep ((x ++ ' ' :: y) :: X) = x ++ ' ' :: joinSep (y :: X) := by
  cases X with
  | nil => rfl
  | cons z X => show (x ++ ' ' :: y) ++ ' ' :: joinSep (z :: X) = _; simp [joinSep]

lemma data_append (s t : String) : (s ++ t).data = s.data ++ t.data := rfl

lemma data_pyJoin_space : ∀ (ss : List String) (s : String),
    (List.foldl (fun acc t => acc ++ " " ++ t) s ss).data = joinSep (s.data :: ss.map String.data) := by
  intro ss
  induction ss with
  | nil => intro s; rfl
  | cons t ts ih =>
    intro s
    show (List.foldl (fun acc t => acc ++ " " ++ t) (s ++ " " ++ t) ts).data = _
    rw [ih (s ++ " " ++ t)]
    have hsp : (s ++ " " ++ t).data = s.data ++ ' ' :: t.data := by
      rw [data_append, data_append, List.append_assoc]
      rfl
    rw [hsp, joinSep_glue]
    rfl

lemma pyJoin_space_data (ss : List String) (hne : ss ≠ []) :
    (pyJoin " " ss).data = joinSep (ss.map String.data) := by
  cases ss with
  | nil => exact absurd rfl hne
  | cons s ts => exact data_pyJoin_space ts s

/-! ### Lemmas about the chunk windowing -/

lemma chunkWordsGo_nil (n m : Nat) : chunkWordsGo n m [] = [] := by
  cases n <;> rfl

lemma chunkWordsGo_flatten (m : Nat) : ∀ (n : Nat) (ws : List String), ws.length ≤ n →
    (chunkWordsGo n m ws).flatten = ws := by
  intro n
  induction n with
  | zero =>
    intro ws h
    have : ws = [] := List.length_eq_zero.mp (Nat.le_zero.mp h)
    subst this; rfl
  | succ n ih =>
    intro ws h
    cases ws with
    | nil => rfl
    | cons w rest =>
      show ((w :: rest.take (m - 1)) :: chunkWordsGo n m (rest.drop (m - 1))).flatten = w :: rest
      have hlen : (rest.drop (m - 1)).length ≤ n := by
        rw [List.length_drop]
        have : rest.length ≤ n := by simpa using h
        omega
      rw [List.flatten_cons, ih (rest.drop (m - 1)) hlen]
      simp [List.take_append_drop]

lemma chunkWordsGo_length (m : Nat) (hm : 1 ≤ m) : ∀ (n : Nat) (ws : List String),
    ws.length ≤ n → (chunkWordsGo n m ws).length = (ws.length + m - 1) / m := by
  intro n
  induction n with
  | zero =>
    intro ws h
    have hws : ws = [] := List.length_eq_zero.mp (Nat.le_zero.mp h)
    subst hws
    show ([] : List (List String)).length = (([] : List String).length + m - 1) / m
    rw [Nat.div_eq_of_lt (by simp; omega)]
    rfl
  | succ n ih =>
    intro ws h
    cases ws with
    | nil =>
      show ([] : List (List String)).length = (([] : List String).length + m - 1) / m
      rw [Nat.div_eq_of_lt (by simp; omega)]
      rfl
    | cons w rest =>
      show (chunkWordsGo (n + 1) m (w :: rest)).length = _
      have hlen : (rest.drop (m - 1)).length ≤ n := by
        rw [List.length_drop]
        have : rest.length ≤ n := by simpa using h
        omega
      have step : chunkWordsGo (n + 1) m (w :: rest) =
          (w :: rest.take (m - 1)) :: chunkWordsGo n m (rest.drop (m - 1)) := rfl
      rw [step]
      rw [List.length_cons, ih (rest.drop (m - 1)) hlen, List.length_drop]
      have hm0 : 0 < m := hm
      have hrhs : (w :: rest).length + m - 1 = rest.length + m := by
        simp only [List.length_cons]; omega
      rw [hrhs, Nat.add_div_right _ hm0]
      rcases le_or_lt (m - 1) rest.length with hle | hlt
      · have e : rest.length - (m - 1) + m - 1 = rest.length := by omega
        rw [e]
      · have e : rest.length - (m - 1) + m - 1 = m - 1 := by omega
        rw [e]
        have e1 : (m - 1) / m = 0 := Nat.div_eq_of_lt (by omega)
        have e2 : rest.length / m = 0 := Nat.div_eq_of_lt (by omega)
        omega

lemma chunkWordsGo_mem (m : Nat) (hm : 1 ≤ m) : ∀ (n : Nat) (ws : List String),
    ws.length ≤ n → ∀ g ∈ chunkWordsGo n m ws, g ≠ [] ∧ g.length ≤ m := by
  intro n
  induction n with
  | zero =>
    intro ws h g hg
    have : ws = [] := List.length_eq_zero.mp (Nat.le_zero.mp h)
    subst this
    simp [chunkWordsGo_nil] at hg
  | succ n ih =>
    intro ws h g hg
    cases ws with
    | nil => simp [chunkWordsGo_nil] at hg
    | cons w rest =>
      have hlen : (rest.drop (m - 1)).length ≤ n := by
        rw [List.length_drop]
        have : rest.length ≤ n := by simpa using h
        omega
      have step : chunkWordsGo (n + 1) m (w :: rest) =
          (w :: rest.take (m - 1)) :: chunkWordsGo n m (rest.drop (m - 1)) := rfl
      rw [step] at hg
      rcases List.mem_cons.mp hg with hg | hg
      · subst hg
        refine ⟨by simp, ?_⟩
        have htk : (rest.take (m - 1)).length ≤ m - 1 := by
          rw [List.length_take]; exact Nat.min_le_left _ _
        simp only [List.length_cons]
        omega
      · exact ih (rest.drop (m - 1)) hlen g hg

lemma chunkWordsGo_full (m : Nat) (hm : 1 ≤ m) : ∀ (n : Nat) (ws : List String),
    ws.length ≤ n → ∀ (i : Nat) (g : List String),
    i + 1 < (chunkWordsGo n m ws).length → (chunkWordsGo n m ws)[i]? = some g →
    g.length = m := by
  intro n
  induction n with
  | zero =>
    intro ws h i g hi _
    have : ws = [] := List.length_eq_zero.mp (Nat.le_zero.mp h)
    subst this
    simp [chunkWordsGo_nil] at hi
  | succ n ih =>
    intro ws h i g hi hget
    cases ws with
    | nil => simp [chunkWordsGo_nil] at hi
    | cons w rest =>
      have hlen : (rest.drop (m - 1)).length ≤ n := by
        rw [List.length_drop]
        have : rest.length ≤ n := by simpa using h
        omega
      have step : chunkWordsGo (n + 1) m (w :: rest) =
          (w :: rest.take (m - 1)) :: chunkWordsGo n m (rest.drop (m - 1)) := rfl
      rw [step] at hi hget
      cases i with
      | zero =>
        have hne : chunkWordsGo n m (rest.drop (m - 1)) ≠ [] := by
          intro hcon
          rw [hcon] at hi
          simp at hi
        have hdropne : rest.drop (m - 1) ≠ [] := by
          intro hcon
          rw [hcon, chunkWordsGo_nil] at hne
          exact hne rfl
        have hrest : m - 1 ≤ rest.length := by
          by_contra hcon
          push_neg at hcon
          exact hdropne (List.drop_of_length_le (by omega))
        simp only [List.getElem?_cons_zero, Option.some.injEq] at hget
        subst hget
        simp only [List.length_cons, List.length_take]
        omega
      | succ i =>
        simp only [List.getElem?_cons_succ] at hget
        simp only [List.length_cons] at hi
        exact ih (rest.drop (m - 1)) hlen i g (by omega) hget

lemma joinSep_append : ∀ (g rest : List (List Char)), g ≠ [] → rest ≠ [] →
    joinSep (g ++ rest) = joinSep g ++ ' ' :: joinSep rest := by
  intro g
  induction g with
  | nil => intro rest h _; exact absurd rfl h
  | cons w g ih =>
    intro rest _ hrest
    cases g with
    | nil =>
      cases rest with
      | nil => exact absurd rfl hrest
      | cons x rs => rfl
    | cons y g2 =>
      show joinSep (w :: ((y :: g2) ++ rest)) = _
      have h1 : joinSep (w :: ((y :: g2) ++ rest)) = w ++ ' ' :: joinSep ((y :: g2) ++ rest) := rfl
      rw [h1, ih rest (by simp) hrest]
      have h2 : joinSep (w :: y :: g2) = w ++ ' ' :: joinSep (y :: g2) := rfl
      rw [h2, List.append_assoc]
      rfl

lemma joinSep_flatten : ∀ (wss : List (List (List Char))), (∀ x ∈ wss, x ≠ []) →
    joinSep (wss.map joinSep) = joinSep wss.flatten := by
  intro wss
  induction wss with
  | nil => intro _; rfl
  | cons g wss ih =>
    intro h
    have hg : g ≠ [] := h g (by simp)
    have hws : ∀ x ∈ wss, x ≠ [] := fun x hx => h x (by simp [hx])
    cases wss with
    | nil => simp [joinSep]
    | cons g2 wss2 =>
      have hflat : ((g2 :: wss2).flatten) ≠ [] := by
        have : g2 ≠ [] := h g2 (by simp)
        cases g2 with
        | nil => exact absurd rfl this
        | cons a b => simp [List.flatten_cons]
      show joinSep (joinSep g :: (g2 :: wss2).map joinSep) = _
      have h1 : joinSep (joinSep g :: (g2 :: wss2).map joinSep) =
          joinSep g ++ ' ' :: joinSep ((g2 :: wss2).map joinSep) := rfl
      rw [h1, ih hws]
      have h3 : (g :: g2 :: wss2).flatten = g ++ (g2 :: wss2).flatten := rfl
      rw [h3, joinSep_append g ((g2 :: wss2).flatten) hg hflat]

lemma mk_data (s : String) : String.mk s.data = s := rfl

lemma pySplit_words_wf (text : String) :
    ∀ w ∈ pySplit text, w.data ≠ [] ∧ ∀ c ∈ w.data, isPySpace c = false := by
  intro w hw
  obtain ⟨u, hu, rfl⟩ := List.mem_map.mp hw
  exact pySplit_wf text u hu

lemma pySplit_chunk (g : List String) (hg : g ≠ [])
    (hwf : ∀ w ∈ g, w.data ≠ [] ∧ ∀ c ∈ w.data, isPySpace c = false) :
    pySplit (pyJoin " " g) = g := by
  unfold pySplit pySplitChars
  rw [pyJoin_space_data g hg]
  have hwf2 : ∀ u ∈ g.map String.data, u ≠ [] ∧ ∀ c ∈ u, isPySpace c = false := by
    intro u hu
    obtain ⟨w, hw, rfl⟩ := List.mem_map.mp hu
    exact hwf w hw
  have hrt := pySplitChars_joinSep (g.map String.data) hwf2
  unfold pySplitChars at hrt
  rw [hrt, List.map_map]
  have : (String.mk ∘ String.data) = id := funext (fun s => mk_data s)
  rw [this, List.map_id]

lemma joinSep_ne_nil (g : List (List Char)) (hg : g ≠ [])
    (hw : ∀ w ∈ g, w ≠ []) : joinSep g ≠ [] := by
  cases g with
  | nil => exact absurd rfl hg
  | cons w rest =>
    cases rest with
    | nil => exact hw w (by simp)
    | cons x rs =>
      show w ++ ' ' :: joinSep (x :: rs) ≠ []
      have := hw w (by simp)
      cases w with
      | nil => exact absurd rfl this
      | cons a b => simp

lemma chunk_join_eq_words (ws : List String) (m : Nat) (hm : 1 ≤ m) :
    pyJoin " " ((chunkWordsGo ws.length m ws).map (fun g => pyJoin " " g)) = pyJoin " " ws := by
  rcases ws with _ | ⟨w, rest⟩
  · rfl
  · have hwsne : (w :: rest) ≠ ([] : List String) := by simp
    have hWSSne : chunkWordsGo (w :: rest).length m (w :: rest) ≠ [] := by
      have step : chunkWordsGo (w :: rest).length m (w :: rest) =
          (w :: rest.take (m - 1)) :: chunkWordsGo rest.length m (rest.drop (m - 1)) := rfl
      rw [step]
      simp
    have hmem := chunkWordsGo_mem m hm (w :: rest).length (w :: rest) (Nat.le_refl _)
    have hmapne : (chunkWordsGo (w :: rest).length m (w :: rest)).map (fun g => pyJoin " " g) ≠ [] := by
      simpa using hWSSne
    apply String.ext
    rw [pyJoin_space_data _ hmapne, pyJoin_space_data (w :: rest) hwsne]
    rw [List.map_map]
    have hcongr : (chunkWordsGo (w :: rest).length m (w :: rest)).map
          (String.data ∘ fun g => pyJoin " " g) =
        ((chunkWordsGo (w :: rest).length m (w :: rest)).map
          (fun g => g.map String.data)).map joinSep := by
      rw [List.map_map]
      apply List.map_congr_left
      intro g hg
      exact pyJoin_space_data g ((hmem g hg).1)
    rw [hcongr]
    rw [joinSep_flatten _ (by
      intro x hx
      obtain ⟨g, hg, rfl⟩ := List.mem_map.mp hx
      have hne := (hmem g hg).1
      intro hcon
      exact hne (by
        have h0 := congrArg List.length hcon
        simp at h0
        exact h0))]
    rw [← List.map_flatten, chunkWordsGo_flatten m (w :: rest).length (w :: rest) (Nat.le_refl _)]

/-- The chunks produced by `chunk_text text m` for `1 ≤ m`, with the facts
linking them back to the word list. -/
lemma chunk_text_eq (text : String) (m : Nat) (hm : 1 ≤ m) :
    chunk_text text m =
      some ((chunkWordsGo (pySplit text).length m (pySplit text)).map (fun g => pyJoin " " g)) := by
  unfold chunk_text
  rw [if_neg (by omega)]

lemma chunk_words_wf (text : String) (m : Nat) (g : List String)
    (hg : g ∈ chunkWordsGo (pySplit text).length m (pySplit text)) :
    ∀ w ∈ g, w.data ≠ [] ∧ ∀ c ∈ w.data, isPySpace c = false := by
  intro w hw
  have hflat : w ∈ (chunkWordsGo (pySplit text).length m (pySplit text)).flatten :=
    List.mem_flatten.mpr ⟨g, hg, hw⟩
  rw [chunkWordsGo_flatten m _ _ (Nat.le_refl _)] at hflat
  exact pySplit_words_wf text w hflat

/-! ### Claim theorems -/

/-- C1: for every text and every `max_words ≥ 1`, `chunk_text` succeeds and
returns chunks whose space-joined concatenation reproduces the
whitespace-normalized original (the space-join of its split words), whose
count is `⌈word_count / max_words⌉`, and in which every chunk except the
last has exactly `max_words` words; on the empty string it returns the
empty sequence. -/
theorem chunk_text_spec (text : String) (max_words : Nat) (hm : 1 ≤ max_words) :
    ∃ chunks, chunk_text text max_words = some chunks ∧
      pyJoin " " chunks = pyJoin " " (pySplit text) ∧
      chunks.length = ((pySplit text).length + max_words - 1) / max_words ∧
      (∀ i g, i + 1 < chunks.length → chunks[i]? = some g →
        (pySplit g).length = max_words) ∧
      chunk_text "" max_words = some [] := by
  refine ⟨_, chunk_text_eq text max_words hm,
    chunk_join_eq_words (pySplit text) max_words hm, ?_, ?_, ?_⟩
  · rw [List.length_map]
    exact chunkWordsGo_length max_words hm _ _ (Nat.le_refl _)
  · intro i g hi hget
    rw [List.length_map] at hi
    rw [List.getElem?_map] at hget
    cases hgi : (chunkWordsGo (pySplit text).length max_words (pySplit text))[i]? with
    | none => rw [hgi] at hget; simp at hget
    | some gi =>
      rw [hgi] at hget
      simp only [Option.map_some'] at hget
      have hgeq : g = pyJoin " " gi := by
        injection hget with h
        exact h.symm
      subst hgeq
      have hmem : gi ∈ chunkWordsGo (pySplit text).length max_words (pySplit text) :=
        List.getElem?_mem hgi
      have hgine := (chunkWordsGo_mem max_words hm _ _ (Nat.le_refl _) gi hmem).1
      rw [pySplit_chunk gi hgine (chunk_words_wf text max_words gi hmem)]
      exact chunkWordsGo_full max_words hm _ _ (Nat.le_refl _) i gi hi hgi
  · unfold chunk_text
    rw [if_neg (by omega)]
    rfl

/-- Closed instance of `chunk_text_spec` at a concrete text and bound. -/
theorem chunk_text_spec_witness :
    ∃ chunks, chunk_text "alpha beta gamma" 2 = some chunks ∧
      pyJoin " " chunks = pyJoin " " (pySplit "alpha beta gamma") ∧
      chunks.length = ((pySplit "alpha beta gamma").length + 2 - 1) / 2 ∧
      (∀ i g, i + 1 < chunks.length → chunks[i]? = some g →
        (pySplit g).length = 2) ∧
      chunk_text "" 2 = some [] :=
  chunk_text_spec "alpha beta gamma" 2 (by decide)

/-- C10 (implicit invariant): every chunk returned by `chunk_text` with
`max_words ≥ 1` is a nonempty string containing at least one and at most
`max_words` words. -/
theorem chunk_text_bounds (text : String) (max_words : Nat) (hm : 1 ≤ max_words)
    (chunks : List String) (hc : chunk_text text max_words = some chunks) :
    ∀ c ∈ chunks, c ≠ "" ∧ 1 ≤ (pySplit c).length ∧ (pySplit c).length ≤ max_words := by
  rw [chunk_text_eq text max_words hm] at hc
  injection hc with hc
  subst hc
  intro c hcmem
  obtain ⟨g, hg, rfl⟩ := List.mem_map.mp hcmem
  have hmem := chunkWordsGo_mem max_words hm _ _ (Nat.le_refl _) g hg
  have hwf := chunk_words_wf text max_words g hg
  rw [pySplit_chunk g hmem.1 hwf]
  refine ⟨?_, ?_, hmem.2⟩
  · intro hcon
    have hdata : (pyJoin " " g).data = [] := by rw [hcon]
    rw [pyJoin_space_data g hmem.1] at hdata
    have hmapne : g.map String.data ≠ [] := by
      intro hcon
      simp at hcon
      exact hmem.1 hcon
    refine joinSep_ne_nil (g.map String.data) hmapne ?_ hdata
    intro u hu
    obtain ⟨w, hw, rfl⟩ := List.mem_map.mp hu
    exact (hwf w hw).1
  · have := hmem.1
    cases g with
    | nil => exact absurd rfl this
    | cons a b => simp

/-- Closed instance of `chunk_text_bounds` at a concrete text, bound, and
chunk. -/
theorem chunk_text_bounds_witness :
    "three four" ≠ "" ∧ 1 ≤ (pySplit "three four").length ∧ (pySplit "three four").length ≤ 2 :=
  chunk_text_bounds "one two  three four five" 2 (by decide)
    ["one two", "three four", "five"] (by decide) "three four" (by decide)

/-! ### Lemmas about summarize_text -/

lemma summarize_text_eq (summarizer : String → Int → Int → Except Exn String)
    (text : String) (maxL minL : Int) :
    summarize_text summarizer text maxL minL =
      (let summaries := ((chunkWordsGo (pySplit text).length 900 (pySplit text)).map
          (fun g => pyJoin " " g)).filterMap (fun c =>
            match summarizer c maxL minL with
            | Except.ok s => some s
            | Except.error _ => none);
       if summaries = [] then none else some (pyJoin " " summaries)) := by
  unfold summarize_text
  rw [chunk_text_eq text 900 (by omega)]

lemma summarize_text_chunks (summarizer : String → Int → Int → Except Exn String)
    (text : String) (maxL minL : Int) (chunks : List String)
    (hc : chunk_text text 900 = some chunks) :
    summarize_text summarizer text maxL minL =
      (let summaries := chunks.filterMap (fun c =>
            match summarizer c maxL minL with
            | Except.ok s => some s
            | Except.error _ => none);
       if summaries = [] then none else some (pyJoin " " summaries)) := by
  unfold summarize_text
  rw [hc]

/-- C5: when chunking yields exactly three chunks and the summarization
service succeeds on chunks 1 and 3 and raises on chunk 2, `summarize_text`
returns `summary1 ++ " " ++ summary3` in original order — not a failure. -/
theorem summarize_text_skips_failed (summarizer : String → Int → Int → Except Exn String)
    (text : String) (maxL minL : Int) (c1 c2 c3 s1 s3 : String)
    (hc : chunk_text text 900 = some [c1, c2, c3])
    (h1 : summarizer c1 maxL minL = Except.ok s1)
    (h2 : ∃ e, summarizer c2 maxL minL = Except.error e)
    (h3 : summarizer c3 maxL minL = Except.ok s3) :
    summarize_text summarizer text maxL minL = some (s1 ++ " " ++ s3) := by
  obtain ⟨e, h2⟩ := h2
  rw [summarize_text_chunks summarizer text maxL minL [c1, c2, c3] hc]
  show (if List.filterMap _ [c1, c2, c3] = [] then _ else _) = _
  rw [List.filterMap_cons, List.filterMap_cons, List.filterMap_cons, List.filterMap_nil]
  rw [h1, h2, h3]
  rw [if_neg (by simp)]
  rfl

/-- Fuel irrelevance for the chunk windowing: any fuel at least the word
count gives the same chunks. -/
lemma chunkWordsGo_fuel : ∀ (n1 n2 m : Nat) (ws : List String),
    ws.length ≤ n1 → ws.length ≤ n2 → chunkWordsGo n1 m ws = chunkWordsGo n2 m ws := by
  intro n1
  induction n1 with
  | zero =>
    intro n2 m ws h1 _
    have : ws = [] := List.length_eq_zero.mp (Nat.le_zero.mp h1)
    subst this
    rw [chunkWordsGo_nil, chunkWordsGo_nil]
  | succ n ih =>
    intro n2 m ws h1 h2
    cases ws with
    | nil => rw [chunkWordsGo_nil, chunkWordsGo_nil]
    | cons w rest =>
      cases n2 with
      | zero => simp at h2
      | succ n2 =>
        have hd1 : (rest.drop (m - 1)).length ≤ n := by
          rw [List.length_drop]
          have : rest.length ≤ n := by simpa using h1
          omega
        have hd2 : (rest.drop (m - 1)).length ≤ n2 := by
          rw [List.length_drop]
          have : rest.length ≤ n2 := by simpa using h2
          omega
        show (w :: rest.take (m - 1)) :: chunkWordsGo n m (rest.drop (m - 1)) =
          (w :: rest.take (m - 1)) :: chunkWordsGo n2 m (rest.drop (m - 1))
        rw [ih n2 m _ hd1 hd2]

/-- Peeling one full window off the front of the word list. -/
lemma chunkWordsGo_chunk_append (m : Nat) (hm : 1 ≤ m) (g rest : List String)
    (hg : g.length = m) :
    chunkWordsGo (g ++ rest).length m (g ++ rest) = g :: chunkWordsGo rest.length m rest := by
  cases g with
  | nil => simp at hg; omega
  | cons w gt =>
    have hlen : ((w :: gt) ++ rest).length = (gt ++ rest).length + 1 := by simp
    have step : chunkWordsGo ((w :: gt) ++ rest).length m ((w :: gt) ++ rest) =
        (w :: ((gt ++ rest).take (m - 1))) ::
          chunkWordsGo ((gt ++ rest).length) m ((gt ++ rest).drop (m - 1)) := by
      rw [hlen]
      rfl
    rw [step]
    have hgt : gt.length = m - 1 := by simp at hg; omega
    rw [← hgt, List.take_left, List.drop_left]
    rw [chunkWordsGo_fuel ((gt ++ rest).length) rest.length m rest (by simp) (Nat.le_refl _)]

lemma c5words_wf : ∀ w ∈ c5words, w.data ≠ [] ∧ ∀ c ∈ w.data, isPySpace c = false := by
  intro w hw
  unfold c5words at hw
  rcases List.mem_append.mp hw with h | h
  · have := List.eq_of_mem_replicate h
    subst this
    exact ⟨by decide, by decide⟩
  · rcases List.mem_append.mp h with h | h
    · have := List.eq_of_mem_replicate h
      subst this
      exact ⟨by decide, by decide⟩
    · simp at h
      subst h
      exact ⟨by decide, by decide⟩

lemma c5words_ne : c5words ≠ [] := by
  intro hcon
  have hlen := congrArg List.length hcon
  rw [show c5words = List.replicate 900 "a" ++ (List.replicate 900 "b" ++ ["c"]) from rfl] at hlen
  rw [List.length_append, List.length_append, List.length_replicate, List.length_replicate] at hlen
  simp at hlen

lemma c5split : pySplit c5text = c5words :=
  pySplit_chunk c5words c5words_ne c5words_wf

lemma c5chunks_eq : chunk_text c5text 900 = some [c5chunk1, c5chunk2, "c"] := by
  rw [chunk_text_eq c5text 900 (by omega), c5split]
  rw [show c5words = List.replicate 900 "a" ++ (List.replicate 900 "b" ++ ["c"]) from rfl]
  rw [chunkWordsGo_chunk_append 900 (by omega) _ _ (by rw [List.length_replicate])]
  rw [chunkWordsGo_chunk_append 900 (by omega) _ _ (by rw [List.length_replicate])]
  rfl

/-- The head character of a space-join is the head of its first word. -/
lemma pyJoin_head (w : String) (ws : List String) :
    w.data ≠ [] → (pyJoin " " (w :: ws)).data.head? = w.data.head? := by
  intro hw
  rw [pyJoin_space_data _ (by simp)]
  cases ws with
  | nil =>
    show (joinSep [w.data]).head? = _
    rfl
  | cons x rest =>
    show (joinSep (w.data :: x.data :: rest.map String.data)).head? = _
    have h1 : joinSep (w.data :: x.data :: rest.map String.data) =
        w.data ++ ' ' :: joinSep (x.data :: rest.map String.data) := rfl
    rw [h1]
    cases hwd : w.data with
    | nil => exact absurd hwd hw
    | cons c t => rfl

lemma c5chunk1_head : c5chunk1.data.head? = some 'a' := by
  unfold c5chunk1
  rw [show List.replicate 900 ("a" : String) = "a" :: List.replicate 899 "a" from rfl]
  rw [pyJoin_head "a" _ (by decide)]
  rfl

lemma c5chunk2_head : c5chunk2.data.head? = some 'b' := by
  unfold c5chunk2
  rw [show List.replicate 900 ("b" : String) = "b" :: List.replicate 899 "b" from rfl]
  rw [pyJoin_head "b" _ (by decide)]
  rfl

/-- Closed instance of `summarize_text_skips_failed`: on the concrete
three-chunk text, with the service failing on chunk 2 only, the result is
the space-join of summaries 1 and 3. -/
theorem summarize_text_skips_failed_witness :
    summarize_text c5summarizer c5text 150 50 = some ("S1" ++ " " ++ "S3") :=
  summarize_text_skips_failed c5summarizer c5text 150 50 c5chunk1 c5chunk2 "c" "S1" "S3"
    c5chunks_eq
    (by unfold c5summarizer; rw [c5chunk1_head]; rfl)
    ⟨⟨"chunk too long"⟩, by unfold c5summarizer; rw [c5chunk2_head]; rfl⟩
    (by unfold c5summarizer; rfl)

lemma truthy_some_of_ne (t : String) (h : t ≠ "") : truthy (some t) = true := by
  simp [truthy, h]

lemma truthy_none : truthy none = false := rfl

lemma truthy_mp3 : truthy (some "audio.mp3") = true := rfl

lemma truthy_wav : truthy (some "audio.wav") = true := rfl

lemma filterMap_summ_nil (summarizer : String → Int → Int → Except Exn String)
    (maxL minL : Int)
    (hfail : ∀ c l1 l2, ∃ e, summarizer c l1 l2 = Except.error e) (L : List String) :
    L.filterMap (fun c => match summarizer c maxL minL with
      | Except.ok s => some s
      | Except.error _ => none) = [] := by
  apply List.filterMap_eq_nil_iff.mpr
  intro c _
  obtain ⟨e, he⟩ := hfail c maxL minL
  rw [he]

lemma summarize_text_all_fail (summarizer : String → Int → Int → Except Exn String)
    (text : String) (maxL minL : Int)
    (hfail : ∀ c l1 l2, ∃ e, summarizer c l1 l2 = Except.error e) :
    summarize_text summarizer text maxL minL = none := by
  rw [summarize_text_eq]
  rw [filterMap_summ_nil summarizer maxL minL hfail]
  rfl

/-! ### Pipeline path lemmas -/

lemma download_audio_ok_true (dw : Bool) (fs : FS) (h : (fs.mp3 || dw) = true) :
    download_audio (Except.ok ()) dw fs = Except.ok (some "audio.mp3", ⟨true, fs.wav⟩) := by
  simp only [download_audio]
  rw [h]
  simp

lemma download_audio_ok_false (dw : Bool) (fs : FS) (h : (fs.mp3 || dw) = false) :
    download_audio (Except.ok ()) dw fs = Except.ok (none, ⟨false, fs.wav⟩) := by
  simp only [download_audio]
  rw [h]
  simp

lemma convert_ok (fs : FS) :
    convert_audio_to_wav (Except.ok ()) fs = (some "audio.wav", ⟨fs.mp3, true⟩) := rfl

lemma convert_error (e : Exn) (fs : FS) :
    convert_audio_to_wav (Except.error e) fs = (none, fs) := rfl

lemma transcribe_ok (t : String) : transcribe_audio (Except.ok t) = some t := rfl

lemma transcribe_error (e : Exn) : transcribe_audio (Except.error e) = none := rfl

lemma cleanup_files_tt :
    cleanup_files ⟨true, true⟩ =
      (⟨false, false⟩, [Ev.removeCall "audio.mp3", Ev.removeCall "audio.wav"]) := rfl

lemma process_body_invalid (env : Env) (url : String) (fs : FS)
    (hx : truthy (extract_video_id url) = false) :
    process_body env url fs = (Except.ok (some "Error: Invalid YouTube URL"), fs, []) := by
  simp [process_body, hx]

lemma process_body_platform (env : Env) (url : String) (fs : FS)
    (hx : truthy (extract_video_id url) = true)
    (t : String) (ht : get_youtube_transcript env.getTranscript = some t) (htne : t ≠ "") :
    process_body env url fs =
      (Except.ok (summarize_text env.summarizer t 150 50), fs, [Ev.getTranscriptCall]) := by
  simp [process_body, hx, ht, truthy_some_of_ne t htne]

lemma process_body_subprocess_raises (env : Env) (url : String) (fs : FS)
    (hx : truthy (extract_video_id url) = true)
    (ht : truthy (get_youtube_transcript env.getTranscript) = false)
    (e : Exn) (hs : env.subprocessRun = Except.error e) :
    process_body env url fs =
      (Except.error e, fs, [Ev.getTranscriptCall, Ev.downloadCall]) := by
  simp [process_body, download_audio, hx, ht, hs]

lemma process_body_download_fail (env : Env) (url : String) (fs : FS)
    (hx : truthy (extract_video_id url) = true)
    (ht : truthy (get_youtube_transcript env.getTranscript) = false)
    (hs : env.subprocessRun = Except.ok ())
    (hd : (fs.mp3 || env.downloadWrites) = false) :
    process_body env url fs =
      (Except.ok (some "Error: Failed to download audio"), ⟨false, fs.wav⟩,
       [Ev.getTranscriptCall, Ev.downloadCall]) := by
  simp [process_body, hx, ht, hs, download_audio_ok_false env.downloadWrites fs hd, truthy_none]

lemma process_body_convert_fail (env : Env) (url : String) (fs : FS)
    (hx : truthy (extract_video_id url) = true)
    (ht : truthy (get_youtube_transcript env.getTranscript) = false)
    (hs : env.subprocessRun = Except.ok ())
    (hd : (fs.mp3 || env.downloadWrites) = true)
    (e : Exn) (hc : env.convertRun = Except.error e) :
    process_body env url fs =
      (Except.ok (some "Error: Failed to convert audio"), ⟨true, fs.wav⟩,
       [Ev.getTranscriptCall, Ev.downloadCall, Ev.convertCall]) := by
  simp [process_body, hx, ht, hs, hc, download_audio_ok_true env.downloadWrites fs hd,
    truthy_mp3, convert_error, truthy_none]

lemma process_body_transcribe_fail (env : Env) (url : String) (fs : FS)
    (hx : truthy (extract_video_id url) = true)
    (ht : truthy (get_youtube_transcript env.getTranscript) = false)
    (hs : env.subprocessRun = Except.ok ())
    (hd : (fs.mp3 || env.downloadWrites) = true)
    (hc : env.convertRun = Except.ok ())
    (hw : truthy (transcribe_audio env.whisperRun) = false) :
    process_body env url fs =
      (Except.ok (some "Error: Failed to transcribe audio"), ⟨true, true⟩,
       [Ev.getTranscriptCall, Ev.downloadCall, Ev.convertCall, Ev.transcribeCall]) := by
  simp [process_body, hx, ht, hs, hc, hw, download_audio_ok_true env.downloadWrites fs hd,
    truthy_mp3, convert_ok, truthy_wav]

lemma process_body_speech (env : Env) (url : String) (fs : FS)
    (hx : truthy (extract_video_id url) = true)
    (ht : truthy (get_youtube_transcript env.getTranscript) = false)
    (hs : env.subprocessRun = Except.ok ())
    (hd : (fs.mp3 || env.downloadWrites) = true)
    (hc : env.convertRun = Except.ok ())
    (t : String) (hw : env.whisperRun = Except.ok t) (htne : t ≠ "") :
    process_body env url fs =
      (Except.ok (if truthy (summarize_text env.summarizer t 150 50) then
          summarize_text env.summarizer t 150 50
        else some "Error: Summarization failed"), ⟨false, false⟩,
       [Ev.getTranscriptCall, Ev.downloadCall, Ev.convertCall, Ev.transcribeCall,
        Ev.removeCall "audio.mp3", Ev.removeCall "audio.wav"]) := by
  simp [process_body, hx, ht, hs, hc, hw, download_audio_ok_true env.downloadWrites fs hd,
    truthy_mp3, convert_ok, truthy_wav, transcribe_ok, truthy_some_of_ne t htne,
    cleanup_files_tt]

lemma process_of_body_ok {env : Env} {url : String} {fs : FS} {r : Option String}
    {fs2 : FS} {tr : List Ev} (h : process_body env url fs = (Except.ok r, fs2, tr)) :
    process_youtube_video env url fs = (r, fs2, tr) := by
  unfold process_youtube_video
  rw [h]

lemma process_of_body_error {env : Env} {url : String} {fs : FS} {e : Exn}
    {fs2 : FS} {tr : List Ev} (h : process_body env url fs = (Except.error e, fs2, tr)) :
    process_youtube_video env url fs = (some ("Error: " ++ e.msg), fs2, tr) := by
  unfold process_youtube_video
  rw [h]

lemma truthy_eq_true_iff (o : Option String) : truthy o = true ↔ ∃ t, o = some t ∧ t ≠ "" := by
  cases o with
  | none => simp [truthy]
  | some s =>
    simp [truthy]

/-- Exhaustive case analysis of the audio fallback path: once the id is
extracted and the platform transcript is falsy, exactly one of the five
outcomes below occurs. -/
lemma process_audio_cases (env : Env) (url : String) (fs : FS)
    (hx : truthy (extract_video_id url) = true)
    (ht : truthy (get_youtube_transcript env.getTranscript) = false) :
    (∃ e, env.subprocessRun = Except.error e ∧
        process_body env url fs =
          (Except.error e, fs, [Ev.getTranscriptCall, Ev.downloadCall])) ∨
    (env.subprocessRun = Except.ok () ∧ (fs.mp3 || env.downloadWrites) = false ∧
        process_body env url fs =
          (Except.ok (some "Error: Failed to download audio"), ⟨false, fs.wav⟩,
           [Ev.getTranscriptCall, Ev.downloadCall])) ∨
    (env.subprocessRun = Except.ok () ∧ (fs.mp3 || env.downloadWrites) = true ∧
      (∃ e, env.convertRun = Except.error e) ∧
        process_body env url fs =
          (Except.ok (some "Error: Failed to convert audio"), ⟨true, fs.wav⟩,
           [Ev.getTranscriptCall, Ev.downloadCall, Ev.convertCall])) ∨
    (env.subprocessRun = Except.ok () ∧ (fs.mp3 || env.downloadWrites) = true ∧
      env.convertRun = Except.ok () ∧ truthy (transcribe_audio env.whisperRun) = false ∧
        process_body env url fs =
          (Except.ok (some "Error: Failed to transcribe audio"), ⟨true, true⟩,
           [Ev.getTranscriptCall, Ev.downloadCall, Ev.convertCall, Ev.transcribeCall])) ∨
    (∃ t, env.subprocessRun = Except.ok () ∧ (fs.mp3 || env.downloadWrites) = true ∧
      env.convertRun = Except.ok () ∧ env.whisperRun = Except.ok t ∧ t ≠ "" ∧
        process_body env url fs =
          (Except.ok (if truthy (summarize_text env.summarizer t 150 50) then
              summarize_text env.summarizer t 150 50
            else some "Error: Summarization failed"), ⟨false, false⟩,
           [Ev.getTranscriptCall, Ev.downloadCall, Ev.convertCall, Ev.transcribeCall,
            Ev.removeCall "audio.mp3", Ev.removeCall "audio.wav"])) := by
  rcases hsub : env.subprocessRun with e | u
  · exact Or.inl ⟨e, rfl, process_body_subprocess_raises env url fs hx ht e hsub⟩
  · cases u
    cases hdd : (fs.mp3 || env.downloadWrites) with
    | false =>
      exact Or.inr (Or.inl ⟨rfl, rfl, process_body_download_fail env url fs hx ht hsub hdd⟩)
    | true =>
      rcases hcv : env.convertRun with e | u2
      · exact Or.inr (Or.inr (Or.inl ⟨rfl, rfl, ⟨e, rfl⟩,
          process_body_convert_fail env url fs hx ht hsub hdd e hcv⟩))
      · cases u2
        cases hwt : truthy (transcribe_audio env.whisperRun) with
        | false =>
          exact Or.inr (Or.inr (Or.inr (Or.inl ⟨rfl, rfl, rfl, rfl,
            process_body_transcribe_fail env url fs hx ht hsub hdd hcv hwt⟩)))
        | true =>
          rcases hwr : env.whisperRun with e | t
          · rw [hwr] at hwt
            simp [transcribe_error, truthy_none] at hwt
          · have htne : t ≠ "" := by
              rw [hwr, transcribe_ok] at hwt
              obtain ⟨t2, ht2, hne⟩ := (truthy_eq_true_iff (some t)).mp hwt
              injection ht2 with h2
              rw [h2]
              exact hne
            exact Or.inr (Or.inr (Or.inr (Or.inr ⟨t, rfl, rfl, rfl, rfl, htne,
              process_body_speech env url fs hx ht hsub hdd hcv t hwr htne⟩)))

/-! ### C3 -/

/-- C3 counterexample: on the platform-transcript path with a summarization
service failing on every chunk, the pipeline returns Python `None` — it
does not report the `"Error: Summarization failed"` string. -/
theorem summarization_failed_platform_counterexample :
    (∀ c l1 l2, ∃ e, c3env.summarizer c l1 l2 = Except.error e) ∧
    (process_youtube_video c3env "https://www.youtube.com/watch?v=abc" ⟨false, false⟩).1 = none ∧
    (process_youtube_video c3env "https://www.youtube.com/watch?v=abc" ⟨false, false⟩).1 ≠
      some "Error: Summarization failed" := by
  refine ⟨fun c l1 l2 => ⟨⟨"service down"⟩, rfl⟩, ?_, ?_⟩ <;> decide

/-- C3 (amended): if the summarization service fails on every chunk, the
aggregate of `summarize_text` is absent; the pipeline then reports
`"Error: Summarization failed"` on the speech-to-text path, while on the
platform-transcript path it returns the absent value (`None`), not an error
string. -/
theorem summarization_all_fail_spec :
    (∀ (summarizer : String → Int → Int → Except Exn String) (text : String) (maxL minL : Int),
      (∀ c l1 l2, ∃ e, summarizer c l1 l2 = Except.error e) →
      summarize_text summarizer text maxL minL = none) ∧
    (∀ (env : Env) (url : String) (fs : FS),
      truthy (extract_video_id url) = true →
      truthy (get_youtube_transcript env.getTranscript) = false →
      env.subprocessRun = Except.ok () →
      (fs.mp3 || env.downloadWrites) = true →
      env.convertRun = Except.ok () →
      ∀ t, env.whisperRun = Except.ok t → t ≠ "" →
      (∀ c l1 l2, ∃ e, env.summarizer c l1 l2 = Except.error e) →
      (process_youtube_video env url fs).1 = some "Error: Summarization failed") ∧
    (∀ (env : Env) (url : String) (fs : FS),
      truthy (extract_video_id url) = true →
      ∀ t, get_youtube_transcript env.getTranscript = some t → t ≠ "" →
      (∀ c l1 l2, ∃ e, env.summarizer c l1 l2 = Except.error e) →
      (process_youtube_video env url fs).1 = none) := by
  refine ⟨summarize_text_all_fail, ?_, ?_⟩
  · intro env url fs hx ht hs hd hc t hw htne hfail
    rw [process_of_body_ok (process_body_speech env url fs hx ht hs hd hc t hw htne)]
    rw [summarize_text_all_fail env.summarizer t 150 50 hfail]
    rfl
  · intro env url fs hx t ht htne hfail
    rw [process_of_body_ok (process_body_platform env url fs hx t ht htne)]
    exact summarize_text_all_fail env.summarizer t 150 50 hfail

/-- Closed instance of `summarization_all_fail_spec` on concrete
environments for all three conjuncts. -/
theorem summarization_all_fail_spec_witness :
    summarize_text (fun _ _ _ => Except.error ⟨"down"⟩) "hello world" 150 50 = none ∧
    (process_youtube_video c3env2 "https://www.youtube.com/watch?v=abc" ⟨false, false⟩).1 =
      some "Error: Summarization failed" ∧
    (process_youtube_video c3env "https://www.youtube.com/watch?v=abc" ⟨false, false⟩).1 = none :=
  ⟨summarization_all_fail_spec.1 _ "hello world" 150 50 (fun _ _ _ => ⟨⟨"down"⟩, rfl⟩),
   summarization_all_fail_spec.2.1 c3env2 _ _ (by decide) (by decide) rfl rfl rfl
     "spoken words" rfl (by decide) (fun _ _ _ => ⟨⟨"service down"⟩, rfl⟩),
   summarization_all_fail_spec.2.2 c3env _ _ (by decide) "hello world" rfl (by decide)
     (fun _ _ _ => ⟨⟨"service down"⟩, rfl⟩)⟩

/-! ### C2 -/

/-- C2 counterexample: on the platform-transcript path the run completes
with both fixed-path temporary files existing, yet no removal is attempted
and both files remain — cleanup is not attempted on every completion
path. -/
theorem cleanup_unconditional_counterexample :
    (process_youtube_video c2env "https://www.youtube.com/watch?v=abc" ⟨true, true⟩).2.1 =
      ⟨true, true⟩ ∧
    Ev.removeCall "audio.mp3" ∉
      (process_youtube_video c2env "https://www.youtube.com/watch?v=abc" ⟨true, true⟩).2.2 ∧
    Ev.removeCall "audio.wav" ∉
      (process_youtube_video c2env "https://www.youtube.com/watch?v=abc" ⟨true, true⟩).2.2 := by
  refine ⟨?_, ?_, ?_⟩ <;> decide

/-- C2 (amended): removal of the fixed-path temporary files is attempted
exactly when the speech-to-text path reaches its summarization step (id
extracted, platform transcript falsy, download, conversion and
transcription all successful); there both files are removed.  On the
platform-transcript path, on the invalid-URL path, and on every failing
fallback step, no removal is attempted and the file state is unchanged
except for the files the fallback itself wrote. -/
theorem cleanup_spec :
    (∀ (env : Env) (url : String) (fs : FS),
      truthy (extract_video_id url) = true →
      truthy (get_youtube_transcript env.getTranscript) = false →
      env.subprocessRun = Except.ok () →
      (fs.mp3 || env.downloadWrites) = true →
      env.convertRun = Except.ok () →
      ∀ t, env.whisperRun = Except.ok t → t ≠ "" →
      (process_youtube_video env url fs).2.1 = ⟨false, false⟩ ∧
      Ev.removeCall "audio.mp3" ∈ (process_youtube_video env url fs).2.2 ∧
      Ev.removeCall "audio.wav" ∈ (process_youtube_video env url fs).2.2) ∧
    (∀ (env : Env) (url : String) (fs : FS),
      truthy (extract_video_id url) = true →
      ∀ t, get_youtube_transcript env.getTranscript = some t → t ≠ "" →
      (process_youtube_video env url fs).2.1 = fs ∧
      ∀ f, Ev.removeCall f ∉ (process_youtube_video env url fs).2.2) ∧
    (∀ (env : Env) (url : String) (fs : FS),
      truthy (extract_video_id url) = false →
      (process_youtube_video env url fs).2.1 = fs ∧
      ∀ f, Ev.removeCall f ∉ (process_youtube_video env url fs).2.2) ∧
    (∀ (env : Env) (url : String) (fs : FS),
      truthy (extract_video_id url) = true →
      truthy (get_youtube_transcript env.getTranscript) = false →
      ∀ f, Ev.removeCall f ∈ (process_youtube_video env url fs).2.2 →
      ∃ t, env.subprocessRun = Except.ok () ∧ (fs.mp3 || env.downloadWrites) = true ∧
        env.convertRun = Except.ok () ∧ env.whisperRun = Except.ok t ∧ t ≠ "") := by
  refine ⟨?_, ?_, ?_, ?_⟩
  · intro env url fs hx ht hs hd hc t hw htne
    rw [process_of_body_ok (process_body_speech env url fs hx ht hs hd hc t hw htne)]
    refine ⟨rfl, ?_, ?_⟩ <;> simp
  · intro env url fs hx t ht htne
    rw [process_of_body_ok (process_body_platform env url fs hx t ht htne)]
    refine ⟨rfl, ?_⟩
    intro f
    simp
  · intro env url fs hx
    rw [process_of_body_ok (process_body_invalid env url fs hx)]
    refine ⟨rfl, ?_⟩
    intro f
    simp
  · intro env url fs hx ht f hf
    rcases process_audio_cases env url fs hx ht with
      ⟨e, hsub, heq⟩ | ⟨hsub, hdd, heq⟩ | ⟨hsub, hdd, ⟨e, hcv⟩, heq⟩ |
      ⟨hsub, hdd, hcv, hwt, heq⟩ | ⟨t, hsub, hdd, hcv, hwr, htne, heq⟩
    · rw [process_of_body_error heq] at hf
      simp at hf
    · rw [process_of_body_ok heq] at hf
      simp at hf
    · rw [process_of_body_ok heq] at hf
      simp at hf
    · rw [process_of_body_ok heq] at hf
      simp at hf
    · exact ⟨t, hsub, hdd, hcv, hwr, htne⟩

/-- Closed instance of `cleanup_spec` exercising all four conjuncts on
concrete environments. -/
theorem cleanup_spec_witness :
    ((process_youtube_video c2env2 "https://www.youtube.com/watch?v=abc" ⟨false, false⟩).2.1 =
        ⟨false, false⟩ ∧
      Ev.removeCall "audio.mp3" ∈
        (process_youtube_video c2env2 "https://www.youtube.com/watch?v=abc" ⟨false, false⟩).2.2 ∧
      Ev.removeCall "audio.wav" ∈
        (process_youtube_video c2env2 "https://www.youtube.com/watch?v=abc" ⟨false, false⟩).2.2) ∧
    ((process_youtube_video c2env "https://www.youtube.com/watch?v=abc" ⟨true, true⟩).2.1 =
        ⟨true, true⟩ ∧
      ∀ f, Ev.removeCall f ∉
        (process_youtube_video c2env "https://www.youtube.com/watch?v=abc" ⟨true, true⟩).2.2) ∧
    ((process_youtube_video c2env "not a url" ⟨true, true⟩).2.1 = ⟨true, true⟩ ∧
      ∀ f, Ev.removeCall f ∉ (process_youtube_video c2env "not a url" ⟨true, true⟩).2.2) :=
  ⟨cleanup_spec.1 c2env2 _ _ (by decide) (by decide) rfl rfl rfl "spoken words" rfl (by decide),
   cleanup_spec.2.1 c2env _ _ (by decide) "hello" rfl (by decide),
   cleanup_spec.2.2.1 c2env "not a url" _ (by decide)⟩

/-! ### C4 -/

/-- C4: once the id is extracted and the platform transcript is falsy, the
trace starts with the transcript call then the download call; when download
fails (no exception, no file) the result is the AudioDownloadFailed string
and neither conversion nor transcription is invoked; whenever conversion
(resp. transcription) is invoked it comes exactly third (resp. fourth), so
the fallback runs download, then conversion, then transcription, in that
order. -/
theorem pipeline_fallback_order (env : Env) (url : String) (fs : FS)
    (hx : truthy (extract_video_id url) = true)
    (ht : truthy (get_youtube_transcript env.getTranscript) = false) :
    (process_youtube_video env url fs).2.2.take 2 =
      [Ev.getTranscriptCall, Ev.downloadCall] ∧
    (env.subprocessRun = Except.ok () → (fs.mp3 || env.downloadWrites) = false →
      (process_youtube_video env url fs).1 = some "Error: Failed to download audio" ∧
      Ev.convertCall ∉ (process_youtube_video env url fs).2.2 ∧
      Ev.transcribeCall ∉ (process_youtube_video env url fs).2.2) ∧
    (Ev.convertCall ∈ (process_youtube_video env url fs).2.2 →
      (process_youtube_video env url fs).2.2.take 3 =
        [Ev.getTranscriptCall, Ev.downloadCall, Ev.convertCall]) ∧
    (Ev.transcribeCall ∈ (process_youtube_video env url fs).2.2 →
      (process_youtube_video env url fs).2.2.take 4 =
        [Ev.getTranscriptCall, Ev.downloadCall, Ev.convertCall, Ev.transcribeCall]) := by
  rcases process_audio_cases env url fs hx ht with
    ⟨e, hsub, heq⟩ | ⟨hsub, hdd, heq⟩ | ⟨hsub, hdd, ⟨e, hcv⟩, heq⟩ |
    ⟨hsub, hdd, hcv, hwt, heq⟩ | ⟨t, hsub, hdd, hcv, hwr, htne, heq⟩
  · rw [process_of_body_error heq]
    refine ⟨rfl, ?_, fun h => absurd h (by simp), fun h => absurd h (by simp)⟩
    intro hs' _
    rw [hs'] at hsub
    exact absurd hsub (by simp)
  · rw [process_of_body_ok heq]
    exact ⟨rfl, fun _ _ => ⟨rfl, by simp, by simp⟩,
      fun h => absurd h (by simp), fun h => absurd h (by simp)⟩
  · rw [process_of_body_ok heq]
    refine ⟨rfl, ?_, fun _ => rfl, fun h => absurd h (by simp)⟩
    intro _ hd'
    rw [hd'] at hdd
    exact absurd hdd (by simp)
  · rw [process_of_body_ok heq]
    refine ⟨rfl, ?_, fun _ => rfl, fun _ => rfl⟩
    intro _ hd'
    rw [hd'] at hdd
    exact absurd hdd (by simp)
  · rw [process_of_body_ok heq]
    refine ⟨rfl, ?_, fun _ => rfl, fun _ => rfl⟩
    intro _ hd'
    rw [hd'] at hdd
    exact absurd hdd (by simp)

/-- Closed instance of `pipeline_fallback_order` on a concrete
download-failure environment. -/
theorem pipeline_fallback_order_witness :
    (process_youtube_video c4env "https://www.youtube.com/watch?v=abc" ⟨false, false⟩).2.2.take 2 =
      [Ev.getTranscriptCall, Ev.downloadCall] ∧
    (c4env.subprocessRun = Except.ok () → (FS.mp3 ⟨false, false⟩ || c4env.downloadWrites) = false →
      (process_youtube_video c4env "https://www.youtube.com/watch?v=abc" ⟨false, false⟩).1 =
        some "Error: Failed to download audio" ∧
      Ev.convertCall ∉
        (process_youtube_video c4env "https://www.youtube.com/watch?v=abc" ⟨false, false⟩).2.2 ∧
      Ev.transcribeCall ∉
        (process_youtube_video c4env "https://www.youtube.com/watch?v=abc" ⟨false, false⟩).2.2) ∧
    (Ev.convertCall ∈
        (process_youtube_video c4env "https://www.youtube.com/watch?v=abc" ⟨false, false⟩).2.2 →
      (process_youtube_video c4env "https://www.youtube.com/watch?v=abc" ⟨false, false⟩).2.2.take 3 =
        [Ev.getTranscriptCall, Ev.downloadCall, Ev.convertCall]) ∧
    (Ev.transcribeCall ∈
        (process_youtube_video c4env "https://www.youtube.com/watch?v=abc" ⟨false, false⟩).2.2 →
      (process_youtube_video c4env "https://www.youtube.com/watch?v=abc" ⟨false, false⟩).2.2.take 4 =
        [Ev.getTranscriptCall, Ev.downloadCall, Ev.convertCall, Ev.transcribeCall]) :=
  pipeline_fallback_order c4env "https://www.youtube.com/watch?v=abc" ⟨false, false⟩
    (by decide) (by decide)

/-! ### C8 -/

/-- C8 counterexample: the download stage has no try/except of its own — an
exception of `subprocess.run` escapes `download_audio` unconverted (it is
only the coordinator's catch-all that later converts it). -/
theorem stage_catch_counterexample :
    download_audio (Except.error ⟨"No such file or directory: yt-dlp"⟩) false ⟨false, false⟩ =
      Except.error ⟨"No such file or directory: yt-dlp"⟩ ∧
    ∀ r : Option String × FS,
      download_audio (Except.error ⟨"No such file or directory: yt-dlp"⟩) false ⟨false, false⟩ ≠
        Except.ok r := by
  refine ⟨rfl, ?_⟩
  intro r h
  simp [download_audio] at h

/-- C8 (amended): the only stage exception that escapes into the
coordinator is the download stage's `subprocess.run` exception; the
coordinator's catch-all converts every escaped exception into the
`"Error: ..."` catch-all string, so `process_youtube_video` always returns
a value. -/
theorem exception_conversion_spec :
    (∀ (env : Env) (url : String) (fs : FS) (e : Exn),
      (process_body env url fs).1 = Except.error e →
      env.subprocessRun = Except.error e) ∧
    (∀ (env : Env) (url : String) (fs : FS) (e : Exn),
      (process_body env url fs).1 = Except.error e →
      (process_youtube_video env url fs).1 = some ("Error: " ++ e.msg)) := by
  constructor
  · intro env url fs e h
    cases hx : truthy (extract_video_id url) with
    | false =>
      rw [process_body_invalid env url fs hx] at h
      simp at h
    | true =>
      cases ht : truthy (get_youtube_transcript env.getTranscript) with
      | true =>
        obtain ⟨t, hteq, htne⟩ := (truthy_eq_true_iff _).mp ht
        rw [process_body_platform env url fs hx t hteq htne] at h
        simp at h
      | false =>
        rcases process_audio_cases env url fs hx ht with
          ⟨e2, hsub, heq⟩ | ⟨hsub, hdd, heq⟩ | ⟨hsub, hdd, ⟨e2, hcv⟩, heq⟩ |
          ⟨hsub, hdd, hcv, hwt, heq⟩ | ⟨t, hsub, hdd, hcv, hwr, htne, heq⟩
        · rw [heq] at h
          simp at h
          rw [← h]
          exact hsub
        · rw [heq] at h
          simp at h
        · rw [heq] at h
          simp at h
        · rw [heq] at h
          simp at h
        · rw [heq] at h
          simp at h
  · intro env url fs e h
    rcases hb : process_body env url fs with ⟨r, fs2, tr⟩
    rw [hb] at h
    rcases r with e2 | r2
    · simp at h
      subst h
      unfold process_youtube_video
      rw [hb]
    · simp at h

/-- Closed instance of `exception_conversion_spec` at a concrete
environment whose download call raises. -/
theorem exception_conversion_spec_witness :
    c8env.subprocessRun = Except.error ⟨"boom"⟩ ∧
    (process_youtube_video c8env "https://www.youtube.com/watch?v=abc" ⟨false, false⟩).1 =
      some ("Error: " ++ "boom") :=
  ⟨exception_conversion_spec.1 c8env "https://www.youtube.com/watch?v=abc" ⟨false, false⟩
      ⟨"boom"⟩ rfl,
   exception_conversion_spec.2 c8env "https://www.youtube.com/watch?v=abc" ⟨false, false⟩
      ⟨"boom"⟩ rfl⟩

/-! ### C7 and C9 -/

/-- C7 counterexample: for the invalid URL `"not a url"` the endpoint
answers with server-error status 500 — an invalid URL is not mapped to a
client-error (4xx) status. -/
theorem error_status_counterexample :
    extract_video_id "not a url" = none ∧
    (summarize c2env ⟨false, false⟩ "not a url").1 =
      (RBody.errorB "Error: Invalid YouTube URL", 500) ∧
    ¬(400 ≤ (summarize c2env ⟨false, false⟩ "not a url").1.2 ∧
      (summarize c2env ⟨false, false⟩ "not a url").1.2 ≤ 499) := by
  refine ⟨by decide, by decide, by decide⟩

/-- C7 (amended): every `/summarize` response is either a summary body with
status 200 or an error body with status 400 or 500; status 400 occurs
exactly when the stripped URL is empty; every other failure — an invalid
URL included — carries the server-error status 500. -/
theorem summarize_route_spec (env : Env) (fs : FS) (raw : String) :
    ((∃ s, (summarize env fs raw).1.1 = RBody.summaryB s) ↔
      (summarize env fs raw).1.2 = 200) ∧
    ((∃ s, (summarize env fs raw).1.1 = RBody.errorB s) ↔
      ((summarize env fs raw).1.2 = 400 ∨ (summarize env fs raw).1.2 = 500)) ∧
    ((summarize env fs raw).1.2 = 400 ↔ pyStrip raw = "") ∧
    ((summarize env fs raw).1.2 = 200 ∨ (summarize env fs raw).1.2 = 400 ∨
      (summarize env fs raw).1.2 = 500) := by
  unfold summarize
  by_cases hs : pyStrip raw = ""
  · simp [hs]
  · rcases hp : process_youtube_video env (pyStrip raw) fs with ⟨r, fs2, tr⟩
    rcases r with _ | s
    · simp [hs, hp]
    · by_cases he : pyContains "Error" s
      · simp [hs, hp, he]
      · simp [hs, hp, he]

/-- C9: whenever the pipeline returns a string containing `"Error"` — a
legitimately produced summary included — the endpoint classifies it as a
failure and answers the error body with status 500. -/
theorem error_sniffing_spec (env : Env) (fs : FS) (raw : String) (s : String)
    (hne : pyStrip raw ≠ "")
    (hp : (process_youtube_video env (pyStrip raw) fs).1 = some s)
    (he : pyContains "Error" s = true) :
    (summarize env fs raw).1 = (RBody.errorB s, 500) := by
  unfold summarize
  rcases hfull : process_youtube_video env (pyStrip raw) fs with ⟨r, fs2, tr⟩
  rw [hfull] at hp
  simp at hp
  subst hp
  simp [hne, he, hfull]

/-- Closed instance of `error_sniffing_spec`: a legitimate summary
containing `"Error"` is misclassified as a failure with status 500. -/
theorem error_sniffing_spec_witness :
    (summarize c9env ⟨false, false⟩ "https://www.youtube.com/watch?v=abc").1 =
      (RBody.errorB "An Error in the plot is found", 500) :=
  error_sniffing_spec c9env ⟨false, false⟩ "https://www.youtube.com/watch?v=abc"
    "An Error in the plot is found" (by decide) (by decide) (by decide)

/-! ### C6 -/

lemma idChar_ne {c : Char} (h : isIdChar c = true) {d : Char}
    (hd : isIdChar d = false) : c ≠ d := by
  intro he
  rw [he] at h
  rw [h] at hd
  exact absurd hd (by decide)

lemma idChar_not_c0 (c : Char) (h : isIdChar c = true) : isC0Space c = false := by
  unfold isIdChar at h
  unfold isC0Space
  simp only [Bool.or_eq_true, Bool.and_eq_true, decide_eq_true_eq] at h
  simp only [decide_eq_false_iff_not]
  omega

lemma sanitize_keeps_idChar (c : Char) (h : isIdChar c = true) :
    (!(c = '\t' || c = '\r' || c = '\n')) = true := by
  have h1 : c ≠ '\t' := idChar_ne h (by decide)
  have h2 : c ≠ '\r' := idChar_ne h (by decide)
  have h3 : c ≠ '\n' := idChar_ne h (by decide)
  simp [h1, h2, h3]

lemma breakAt_not_found (p : Char → Bool) :
    ∀ l, (∀ c ∈ l, p c = false) → breakAt p l = (l, []) := by
  intro l
  induction l with
  | nil => intro _; rfl
  | cons c cs ih =>
    intro h
    have hc : p c = false := h c (by simp)
    rw [breakAt.eq_2, hc]
    simp only [Bool.false_eq_true, if_false]
    rw [ih (fun d hd => h d (by simp [hd]))]

lemma breakAt_append_found (p : Char → Bool) :
    ∀ (l1 l2 a : List Char) (c : Char) (r : List Char),
    breakAt p l1 = (a, c :: r) → breakAt p (l1 ++ l2) = (a, c :: (r ++ l2)) := by
  intro l1
  induction l1 with
  | nil =>
    intro l2 a c r h
    simp [breakAt] at h
  | cons x xs ih =>
    intro l2 a c r h
    by_cases hx : p x = true
    · rw [breakAt.eq_2, if_pos hx] at h
      injection h with h1 h2
      injection h2 with hxc hxr
      subst h1
      subst hxc
      subst hxr
      show breakAt p (x :: (xs ++ l2)) = ([], x :: (xs ++ l2))
      rw [breakAt.eq_2, if_pos hx]
    · rw [Bool.not_eq_true] at hx
      rw [breakAt.eq_2, hx] at h
      simp only [Bool.false_eq_true, if_false] at h
      rcases hb : breakAt p xs with ⟨a2, b2⟩
      rw [hb] at h
      dsimp only at h
      injection h with h1 h2
      show breakAt p (x :: (xs ++ l2)) = (a, c :: (r ++ l2))
      rw [breakAt.eq_2, hx]
      simp only [Bool.false_eq_true, if_false]
      rw [ih l2 a2 c r (by rw [hb, h2])]
      rw [← h1]

lemma breakAt_append_not_found (p : Char → Bool) :
    ∀ (l1 l2 : List Char), (∀ c ∈ l1, p c = false) →
    breakAt p (l1 ++ l2) = (l1 ++ (breakAt p l2).1, (breakAt p l2).2) := by
  intro l1
  induction l1 with
  | nil => intro l2 _; simp
  | cons x xs ih =>
    intro l2 h
    have hx : p x = false := h x (by simp)
    show breakAt p (x :: (xs ++ l2)) = _
    rw [breakAt.eq_2, hx]
    simp only [Bool.false_eq_true, if_false]
    rw [ih l2 (fun d hd => h d (by simp [hd]))]
    simp

lemma hasChar_append (ch : Char) (l1 l2 : List Char) :
    hasChar ch (l1 ++ l2) = (hasChar ch l1 || hasChar ch l2) := by
  induction l1 with
  | nil => simp [hasChar]
  | cons c cs ih => simp [hasChar, ih, Bool.or_assoc]

lemma hasChar_eq_false (ch : Char) :
    ∀ l, (∀ c ∈ l, c ≠ ch) → hasChar ch l = false := by
  intro l
  induction l with
  | nil => intro _; rfl
  | cons c cs ih =>
    intro h
    show (decide (c = ch) || hasChar ch cs) = false
    rw [ih (fun d hd => h d (by simp [hd]))]
    simp
    exact h c (by simp)

lemma splitChar_no_sep (sep : Char) :
    ∀ l, (∀ c ∈ l, c ≠ sep) → splitChar sep l = [l] := by
  intro l
  induction l with
  | nil => intro _; rfl
  | cons c cs ih =>
    intro h
    show splitChar sep (c :: cs) = [c :: cs]
    unfold splitChar
    rw [ih (fun d hd => h d (by simp [hd]))]
    simp [h c (by simp)]

lemma unquoteChars_id : ∀ l, (∀ c ∈ l, isIdChar c = true) → unquoteChars l = l := by
  intro l
  induction l with
  | nil => intro _; rfl
  | cons c rest ih =>
    intro h
    have hc : c ≠ '%' := idChar_ne (h c (by simp)) (by decide)
    rw [unquoteChars.eq_3 c rest (fun a b r2 hcp _ => absurd hcp hc)]
    rw [ih (fun d hd => h d (by simp [hd]))]

lemma unquotePlus_id (l : List Char) (h : ∀ c ∈ l, isIdChar c = true) :
    unquotePlus l = l := by
  unfold unquotePlus
  have hmap : l.map (fun c => if c = '+' then ' ' else c) = l := by
    conv_rhs => rw [← List.map_id l]
    apply List.map_congr_left
    intro c hc
    have : c ≠ '+' := idChar_ne (h c hc) (by decide)
    simp [this]
  rw [hmap]
  exact unquoteChars_id l h

lemma filter_idChars (id : List Char) (h : ∀ c ∈ id, isIdChar c = true) :
    id.filter (fun c => !(c = '\t' || c = '\r' || c = '\n')) = id :=
  List.filter_eq_self.mpr (fun c hc => sanitize_keeps_idChar c (h c hc))

lemma sanitize_lit_append (lit id : List Char)
    (hlit : List.filter (fun c => !(c = '\t' || c = '\r' || c = '\n')) lit = lit)
    (hhead : ∃ c cs, lit = c :: cs ∧ isC0Space c = false)
    (hid : ∀ c ∈ id, isIdChar c = true) :
    sanitizeURL (lit ++ id) = lit ++ id := by
  unfold sanitizeURL
  rw [List.filter_append, hlit, filter_idChars id hid]
  obtain ⟨c, cs, rfl, hc⟩ := hhead
  rw [List.cons_append, List.dropWhile_cons]
  simp [hc]

lemma splitScheme_found (u pre post : List Char)
    (h : breakAt (fun c => c = ':') u = (pre, ':' :: post))
    (hcheck : ((!pre.isEmpty) &&
      (match pre.head? with | some c => isAsciiAlpha c | none => false) &&
      pre.all isSchemeChar) = true) :
    splitScheme u = (pre.map lowerAscii, post) := by
  unfold splitScheme
  rw [h]
  dsimp only
  rw [if_pos hcheck]

lemma splitAtCharDrop_not_found (ch : Char) (u : List Char) (h : ∀ c ∈ u, c ≠ ch) :
    splitAtCharDrop ch u = (u, []) := by
  unfold splitAtCharDrop
  rw [breakAt_not_found _ u (fun c hc => by simp [h c hc])]

lemma splitAtCharDrop_found (ch : Char) (u pre : List Char) (c0 : Char) (post : List Char)
    (h : breakAt (fun c => c = ch) u = (pre, c0 :: post)) :
    splitAtCharDrop ch u = (pre, post) := by
  unfold splitAtCharDrop
  rw [h]

lemma urlparse_watch (id : List Char) (hid : ∀ c ∈ id, isIdChar c = true) :
    urlparse (String.mk ("https://www.youtube.com/watch?v=".data ++ id)) =
      Except.ok ⟨"https", "www.youtube.com", "/watch", "", String.mk ('v' :: '=' :: id), ""⟩ := by
  have hsan : sanitizeURL ("https://www.youtube.com/watch?v=".data ++ id) =
      "https://www.youtube.com/watch?v=".data ++ id :=
    sanitize_lit_append _ id (by decide)
      ⟨'h', "ttps://www.youtube.com/watch?v=".data, by decide, by decide⟩ hid
  have hbr1 : breakAt (fun c => c = ':') ("https://www.youtube.com/watch?v=".data ++ id) =
      ("https".data, ':' :: ("//www.youtube.com/watch?v=".data ++ id)) :=
    breakAt_append_found (fun c => c = ':') "https://www.youtube.com/watch?v=".data id
      "https".data ':' "//www.youtube.com/watch?v=".data (by decide)
  have hscheme : splitScheme ("https://www.youtube.com/watch?v=".data ++ id) =
      ("https".data, "//www.youtube.com/watch?v=".data ++ id) := by
    rw [splitScheme_found _ _ _ hbr1 (by decide)]
    rw [show ("https".data).map lowerAscii = "https".data from by decide]
  have hu1eq : "//www.youtube.com/watch?v=".data ++ id =
      '/' :: '/' :: ("www.youtube.com/watch?v=".data ++ id) := by
    rw [show "//www.youtube.com/watch?v=".data =
      '/' :: '/' :: "www.youtube.com/watch?v=".data from by decide]
    rfl
  have hbr2 : breakAt (fun c => c = '/' || c = '?' || c = '#')
      ("www.youtube.com/watch?v=".data ++ id) =
      ("www.youtube.com".data, '/' :: ("watch?v=".data ++ id)) :=
    breakAt_append_found _ _ id "www.youtube.com".data '/' "watch?v=".data (by decide)
  have hnet : splitNetloc ("//www.youtube.com/watch?v=".data ++ id) =
      ("www.youtube.com".data, '/' :: ("watch?v=".data ++ id)) := by
    unfold splitNetloc
    rw [hu1eq]
    rw [if_pos (show List.take 2 ('/' :: '/' :: ("www.youtube.com/watch?v=".data ++ id)) =
      ['/', '/'] from rfl)]
    exact hbr2
  have hfrag : splitAtCharDrop '#' ('/' :: ("watch?v=".data ++ id)) =
      ('/' :: ("watch?v=".data ++ id), []) := by
    apply splitAtCharDrop_not_found '#'
    intro c hc
    rcases List.mem_cons.mp hc with h | h
    · subst h; decide
    · rcases List.mem_append.mp h with h | h
      · have hall : ∀ c ∈ "watch?v=".data, c ≠ '#' := by decide
        exact hall c h
      · exact idChar_ne (hid c h) (by decide)
  have hquery : splitAtCharDrop '?' ('/' :: ("watch?v=".data ++ id)) =
      ("/watch".data, "v=".data ++ id) := by
    apply splitAtCharDrop_found '?' _ _ '?'
    have heq : '/' :: ("watch?v=".data ++ id) = "/watch?v=".data ++ id := by
      rw [show "/watch?v=".data = '/' :: "watch?v=".data from by decide]
      rfl
    rw [heq]
    exact breakAt_append_found _ _ id "/watch".data '?' "v=".data (by decide)
  have hparams : hasChar ';' "/watch".data = false := by decide
  simp only [urlparse]
  rw [hsan, hscheme]
  dsimp only
  rw [hnet]
  dsimp only
  rw [show (hasChar '[' "www.youtube.com".data != hasChar ']' "www.youtube.com".data) = false
    from by decide]
  simp only [Bool.false_eq_true, if_false]
  rw [hfrag]
  dsimp only
  rw [hquery]
  dsimp only
  rw [hparams]
  simp only [Bool.false_eq_true, if_false]
  rw [show "v=".data ++ id = 'v' :: '=' :: id from by
    rw [show "v=".data = ['v', '='] from by decide]
    rfl]

lemma urlparse_shortlink (id : List Char) (hid : ∀ c ∈ id, isIdChar c = true) :
    urlparse (String.mk ("https://youtu.be/".data ++ id)) =
      Except.ok ⟨"https", "youtu.be", String.mk ('/' :: id), "", "", ""⟩ := by
  have hsan : sanitizeURL ("https://youtu.be/".data ++ id) = "https://youtu.be/".data ++ id :=
    sanitize_lit_append _ id (by decide) ⟨'h', "ttps://youtu.be/".data, by decide, by decide⟩ hid
  have hbr1 : breakAt (fun c => c = ':') ("https://youtu.be/".data ++ id) =
      ("https".data, ':' :: ("//youtu.be/".data ++ id)) :=
    breakAt_append_found _ _ id "https".data ':' "//youtu.be/".data (by decide)
  have hscheme : splitScheme ("https://youtu.be/".data ++ id) =
      ("https".data, "//youtu.be/".data ++ id) := by
    rw [splitScheme_found _ _ _ hbr1 (by decide)]
    rw [show ("https".data).map lowerAscii = "https".data from by decide]
  have hu1eq : "//youtu.be/".data ++ id = '/' :: '/' :: ("youtu.be/".data ++ id) := by
    rw [show "//youtu.be/".data = '/' :: '/' :: "youtu.be/".data from by decide]
    rfl
  have hbr2 : breakAt (fun c => c = '/' || c = '?' || c = '#') ("youtu.be/".data ++ id) =
      ("youtu.be".data, '/' :: ([] ++ id)) :=
    breakAt_append_found _ _ id "youtu.be".data '/' [] (by decide)
  have hnet : splitNetloc ("//youtu.be/".data ++ id) = ("youtu.be".data, '/' :: id) := by
    unfold splitNetloc
    rw [hu1eq]
    rw [if_pos (show List.take 2 ('/' :: '/' :: ("youtu.be/".data ++ id)) = ['/', '/'] from rfl)]
    exact hbr2
  have hfrag : splitAtCharDrop '#' ('/' :: id) = ('/' :: id, []) := by
    apply splitAtCharDrop_not_found
    intro c hc
    rcases List.mem_cons.mp hc with h | h
    · subst h; decide
    · exact idChar_ne (hid c h) (by decide)
  have hquery : splitAtCharDrop '?' ('/' :: id) = ('/' :: id, []) := by
    apply splitAtCharDrop_not_found
    intro c hc
    rcases List.mem_cons.mp hc with h | h
    · subst h; decide
    · exact idChar_ne (hid c h) (by decide)
  have hparams : hasChar ';' ('/' :: id) = false := by
    apply hasChar_eq_false
    intro c hc
    rcases List.mem_cons.mp hc with h | h
    · subst h; decide
    · exact idChar_ne (hid c h) (by decide)
  simp only [urlparse]
  rw [hsan, hscheme]
  dsimp only
  rw [hnet]
  dsimp only
  rw [show (hasChar '[' "youtu.be".data != hasChar ']' "youtu.be".data) = false from by decide]
  simp only [Bool.false_eq_true, if_false]
  rw [hfrag]
  dsimp only
  rw [hquery]
  dsimp only
  rw [hparams]
  simp only [Bool.false_eq_true, if_false]

lemma parse_qs_get_v_id (id : List Char) (hne : id ≠ []) (hid : ∀ c ∈ id, isIdChar c = true) :
    parse_qs_get_v (String.mk ('v' :: '=' :: id)) = some (String.mk id) := by
  unfold parse_qs_get_v
  have hsplit : splitChar '&' ('v' :: '=' :: id) = ['v' :: '=' :: id] := by
    apply splitChar_no_sep
    intro c hc
    rcases List.mem_cons.mp hc with h | h
    · subst h; decide
    · rcases List.mem_cons.mp h with h2 | h2
      · subst h2; decide
      · exact idChar_ne (hid c h2) (by decide)
  have hbr : breakAt (fun c => c = '=') ('v' :: '=' :: id) = (['v'], '=' :: id) := by
    rw [breakAt.eq_2]
    rw [if_neg (by decide)]
    rw [breakAt.eq_2]
    rw [if_pos (by decide)]
  have hpairs : qsPairs ['v' :: '=' :: id] = [(['v'], id)] := by
    unfold qsPairs
    rw [if_neg (by simp)]
    rw [hbr]
    dsimp only
    rw [if_neg hne]
    rw [unquotePlus_id id hid]
    rw [show unquotePlus ['v'] = ['v'] from by decide]
    rfl
  rw [show (String.mk ('v' :: '=' :: id)).data = 'v' :: '=' :: id from rfl]
  rw [hsplit, hpairs]
  rw [List.find?_cons_of_pos _ (by simp)]

lemma extract_watch (id : List Char) (hne : id ≠ []) (hid : ∀ c ∈ id, isIdChar c = true) :
    extract_video_id (String.mk ("https://www.youtube.com/watch?v=".data ++ id)) =
      some (String.mk id) := by
  unfold extract_video_id
  rw [urlparse_watch id hid]
  dsimp only
  rw [show pyContains "youtube.com" "www.youtube.com" = true from by decide]
  simp only [if_true]
  exact parse_qs_get_v_id id hne hid

lemma extract_shortlink (id : List Char) (hne : id ≠ []) (hid : ∀ c ∈ id, isIdChar c = true) :
    extract_video_id (String.mk ("https://youtu.be/".data ++ id)) = some (String.mk id) := by
  unfold extract_video_id
  rw [urlparse_shortlink id hid]
  dsimp only
  rw [show pyContains "youtube.com" "youtu.be" = false from by decide]
  rw [show pyContains "youtu.be" "youtu.be" = true from by decide]
  simp only [Bool.false_eq_true, if_false, if_true]
  have hdrop : List.dropWhile (fun c => c = '/') ('/' :: id) = id := by
    rw [List.dropWhile_cons]
    rw [if_pos (by decide)]
    cases id with
    | nil => rfl
    | cons c rest =>
      rw [List.dropWhile_cons]
      rw [if_neg (by simp; exact idChar_ne (hid c (by simp)) (by decide))]
  rw [hdrop]

/-- C6 counterexample: `https://www.youtube.com.evil.example/watch?v=abc123`
is neither a standard YouTube watch-page URL nor a short-link URL, yet
extraction does not return absent: the `"youtube.com" in netloc` substring
test accepts the look-alike host and the id is returned. -/
theorem extract_video_id_counterexample :
    extract_video_id "https://www.youtube.com.evil.example/watch?v=abc123" = some "abc123" ∧
    extract_video_id "https://www.youtube.com.evil.example/watch?v=abc123" ≠ none := by
  refine ⟨by decide, by decide⟩

/-- C6 (amended): extraction never raises — a parse exception yields
absent; on every standard watch-page URL it returns exactly the id held in
the `v` query parameter; on every short-link URL it returns the path
segment; and it returns absent exactly for inputs whose parsed netloc
contains neither `"youtube.com"` nor `"youtu.be"` as a substring (not for
every other string: the substring test accepts look-alike hosts). -/
theorem extract_video_id_spec :
    (∀ (s : String) (e : Exn), urlparse s = Except.error e → extract_video_id s = none) ∧
    (∀ id : List Char, id ≠ [] → (∀ c ∈ id, isIdChar c = true) →
      extract_video_id (String.mk ("https://www.youtube.com/watch?v=".data ++ id)) =
        some (String.mk id)) ∧
    (∀ id : List Char, id ≠ [] → (∀ c ∈ id, isIdChar c = true) →
      extract_video_id (String.mk ("https://youtu.be/".data ++ id)) = some (String.mk id)) ∧
    (∀ (s : String) (p : URLParts), urlparse s = Except.ok p →
      pyContains "youtube.com" p.netloc = false → pyContains "youtu.be" p.netloc = false →
      extract_video_id s = none) := by
  refine ⟨?_, extract_watch, extract_shortlink, ?_⟩
  · intro s e h
    unfold extract_video_id
    rw [h]
  · intro s p h h1 h2
    unfold extract_video_id
    rw [h]
    dsimp only
    rw [h1, h2]
    simp

/-- Closed instance of `extract_video_id_spec` exercising all four parts. -/
theorem extract_video_id_spec_witness :
    extract_video_id "http://[oops" = none ∧
    extract_video_id (String.mk ("https://www.youtube.com/watch?v=".data ++ ['a', 'b', 'c'])) =
      some (String.mk ['a', 'b', 'c']) ∧
    extract_video_id (String.mk ("https://youtu.be/".data ++ ['d', 'Q', 'w'])) =
      some (String.mk ['d', 'Q', 'w']) ∧
    extract_video_id "https://example.com/watch?v=abc" = none :=
  ⟨extract_video_id_spec.1 "http://[oops" ⟨"Invalid IPv6 URL"⟩ rfl,
   extract_video_id_spec.2.1 ['a', 'b', 'c'] (by decide) (by decide),
   extract_video_id_spec.2.2.1 ['d', 'Q', 'w'] (by decide) (by decide),
   extract_video_id_spec.2.2.2 "https://example.com/watch?v=abc"
     ⟨"https", "example.com", "/watch", "", "v=abc", ""⟩ rfl (by decide) (by decide)⟩

end YTSum
